import Mathlib

/-!
A shallow embedding of `config/validate_requirements.py` (the RedbrickStreet
configuration validator) together with theorems checking the repository
specification against it.

Modelling conventions:
* JSON values are an inductive tree `JValue`; integers and floats are distinct
  scalar kinds, as in the Python `json` module.  Floats are modelled as exact
  rationals (`ℚ`); every float arithmetic operation the validator performs is
  exact at the magnitudes involved, so the rational model is faithful.
* Python dicts are association lists in insertion order (Python 3.7+ dicts
  preserve insertion order); Python sets of ints are duplicate-free lists in
  insertion order.
* Rational arithmetic is routed through `mkRat`-based helpers (`qadd`, `qle`,
  ...) so that every definition evaluates inside the kernel; bridge lemmas
  (`qadd_eq`, `qle_iff`, ...) identify them with the ordinary `ℚ` operations.
-/

namespace Redbrick

/-- Generic JSON tree produced by the external JSON parser. -/
inductive JValue where
  | jnull
  | jbool (b : Bool)
  | jint (n : Int)
  | jnum (q : Rat)
  | jstr (s : String)
  | jarr (xs : List JValue)
  | jobj (kvs : List (String × JValue))

open JValue

/-- Embedding of the helper `is_int`: a true integer, not a boolean
(`isinstance(x, int) and not isinstance(x, bool)`). -/
def is_int : JValue → Bool
  | .jint _ => true
  | _ => false

/-- Embedding of the helper `is_number`: int or float, not a boolean. -/
def is_number : JValue → Bool
  | .jint _ => true
  | .jnum _ => true
  | _ => false

/-- Numeric value of a JSON scalar; the embedding of Python `float(x)` at the
sites where `is_number x` has already been checked. -/
def toQ : JValue → Rat
  | .jint n => (n : Rat)
  | .jnum q => q
  | _ => 0

/-- Integer value of a JSON scalar; the embedding of Python `int(x)` at the
sites where `is_int x` has already been checked. -/
def intOf : JValue → Int
  | .jint n => n
  | _ => 0

/-- Python numeric equality `x == n` between a JSON value and an int literal
(`True == 1`, `1.0 == 1`, strings and other values compare unequal). -/
def pyEqInt (x : JValue) (n : Int) : Bool :=
  match x with
  | .jint m => m = n
  | .jbool b => (if b then (1 : Int) else 0) = n
  | .jnum q => q = (n : Rat)
  | _ => false

/-- Kernel-computable rational addition (same value as `+` on `ℚ`). -/
def qadd (a b : Rat) : Rat := mkRat (a.num * b.den + b.num * a.den) (a.den * b.den)

/-- Kernel-computable rational negation. -/
def qneg (a : Rat) : Rat := mkRat (-a.num) a.den

/-- Kernel-computable rational subtraction. -/
def qsub (a b : Rat) : Rat := qadd a (qneg b)

/-- Kernel-computable rational absolute value. -/
def qabs (a : Rat) : Rat := mkRat (a.num.natAbs : Int) a.den

/-- Kernel-computable `≤` on `ℚ` by cross-multiplication. -/
def qle (a b : Rat) : Bool := a.num * b.den ≤ b.num * a.den

/-- Kernel-computable `<` on `ℚ` by cross-multiplication. -/
def qlt (a b : Rat) : Bool := a.num * b.den < b.num * a.den

theorem qadd_eq (a b : Rat) : qadd a b = a + b := by
  have ha : ((a.den : Rat)) ≠ 0 := Nat.cast_ne_zero.mpr a.den_nz
  have hb : ((b.den : Rat)) ≠ 0 := Nat.cast_ne_zero.mpr b.den_nz
  rw [qadd, Rat.mkRat_eq_div]
  conv_rhs => rw [← Rat.num_div_den a, ← Rat.num_div_den b]
  rw [div_add_div _ _ ha hb]
  push_cast
  ring_nf

theorem qneg_eq (a : Rat) : qneg a = -a := by
  rw [qneg, Rat.mkRat_eq_div]
  push_cast
  rw [neg_div, Rat.num_div_den]

theorem qsub_eq (a b : Rat) : qsub a b = a - b := by
  rw [qsub, qadd_eq, qneg_eq, sub_eq_add_neg]

theorem qabs_eq (a : Rat) : qabs a = |a| := by
  rw [qabs, Rat.mkRat_eq_div]
  conv_rhs => rw [← Rat.num_div_den a]
  rw [abs_div]
  congr 1
  · push_cast [Int.cast_natAbs]
    rfl
  · rw [abs_of_nonneg (by positivity : (0:Rat) ≤ (a.den : Rat))]

theorem qle_iff (a b : Rat) : qle a b = true ↔ a ≤ b := by
  rw [qle, decide_eq_true_iff]
  exact (Rat.le_def).symm

theorem qlt_iff (a b : Rat) : qlt a b = true ↔ a < b := by
  rw [qlt, decide_eq_true_iff]
  exact (Rat.lt_def).symm

/-- Embedding of `EPS = 1e-9`. -/
def EPS : Rat := mkRat 1 1000000000

/-- Embedding of `approx_equal(a, b, eps=EPS)`: `abs(a - b) <= eps`. -/
def approx_equal (a b : Rat) : Bool := qle (qabs (qsub a b)) EPS

theorem approx_equal_iff (a b : Rat) : approx_equal a b = true ↔ |a - b| ≤ EPS := by
  rw [approx_equal, qle_iff, qabs_eq, qsub_eq]

/-- Apostrophe character (ASCII 39). -/
def apos : Char := Char.ofNat 39

/-- Double-quote character (ASCII 34). -/
def quo : Char := Char.ofNat 34

/-- Backslash character (ASCII 92). -/
def bslash : Char := Char.ofNat 92

/-- Left and right curly braces, used by Python dict `repr`. -/
def lcurl : String := "\x7b"

/-- Right curly brace. -/
def rcurl : String := "\x7d"

/-- Escape of one character inside a Python string `repr` quoted by `q`. -/
def pyCharEsc (q : Char) (c : Char) : String :=
  if c = bslash then String.mk [bslash, bslash]
  else if c = q then String.mk [bslash, q]
  else if c = Char.ofNat 10 then String.mk [bslash, Char.ofNat 110]
  else if c = Char.ofNat 13 then String.mk [bslash, Char.ofNat 114]
  else if c = Char.ofNat 9 then String.mk [bslash, Char.ofNat 116]
  else String.singleton c

/-- Python `repr` of a string: single-quoted, switching to double quotes when
the string contains an apostrophe but no double quote. -/
def pyStrRepr (s : String) : String :=
  let q := if s.toList.contains apos && !s.toList.contains quo then quo else apos
  String.singleton q ++ String.join (s.toList.map (pyCharEsc q)) ++ String.singleton q

/-- Rendering of a rational in messages where Python prints a float.  Python
prints the shortest round-tripping decimal; for the integral values the
validator actually formats this is `n.0`, which is reproduced exactly.
Non-integral rationals are rendered as `num/den` (an approximation of the
decimal rendering, irrelevant to every claim). -/
def qRepr (q : Rat) : String :=
  if q.den = 1 then toString q.num ++ ".0" else toString q.num ++ "/" ++ toString q.den

mutual

/-- Python `repr` of a JSON value. -/
def pyRepr : JValue → String
  | .jnull => "None"
  | .jbool b => if b then "True" else "False"
  | .jint n => toString n
  | .jnum q => qRepr q
  | .jstr s => pyStrRepr s
  | .jarr xs => "[" ++ pyReprList xs ++ "]"
  | .jobj kvs => lcurl ++ pyReprObj kvs ++ rcurl

/-- Comma-separated `repr` of array elements. -/
def pyReprList : List JValue → String
  | [] => ""
  | [x] => pyRepr x
  | x :: y :: xs => pyRepr x ++ ", " ++ pyReprList (y :: xs)

/-- Comma-separated `repr` of object entries. -/
def pyReprObj : List (String × JValue) → String
  | [] => ""
  | [kv] => pyStrRepr kv.1 ++ ": " ++ pyRepr kv.2
  | kv :: kv2 :: kvs => pyStrRepr kv.1 ++ ": " ++ pyRepr kv.2 ++ ", " ++ pyReprObj (kv2 :: kvs)

end

/-- Python `str` of a JSON value (`str` of a string is the string itself,
containers render as their `repr`). -/
def pyStr : JValue → String
  | .jstr s => s
  | v => pyRepr v

/-- Python `repr`/`str` of a list of ints, e.g. `[1, 2]`. -/
def intListRepr (xs : List Int) : String :=
  "[" ++ String.intercalate ", " (xs.map toString) ++ "]"

/-- Python `repr`/`str` of a list of lists of ints. -/
def intListListRepr (xs : List (List Int)) : String :=
  "[" ++ String.intercalate ", " (xs.map intListRepr) ++ "]"

/-- Python `repr` of a list of strings, e.g. `[\x27a\x27, \x27b\x27]`. -/
def strListRepr (xs : List String) : String :=
  "[" ++ String.intercalate ", " (xs.map pyStrRepr) ++ "]"

/-- Embedding of `normalize_case`: `s.strip().casefold()` (casefold modelled
as ASCII lowercasing, which agrees with `casefold` on all ASCII data). -/
def normalize_case (s : String) : String := s.trim.toLower

/-- Embedding of `NAME_RE.match(s)` for `^[A-Za-z]+$`. -/
def nameReMatch (s : String) : Bool :=
  !s.toList.isEmpty && s.toList.all Char.isAlpha

/-- Embedding of `RELIGION_RE.match(s)` for `^\S+$`. -/
def religionReMatch (s : String) : Bool :=
  !s.toList.isEmpty && s.toList.all (fun c => !c.isWhitespace)

/-- Embedding of the `Issue` dataclass. -/
structure Issue where
  level : String
  requirement : String
  message : String
  deriving DecidableEq, Repr

/-- First-match association-list lookup; the model of Python dict indexing
(post-parse dicts and all derived indexes have unique keys). -/
def alookup {κ α : Type} [DecidableEq κ] : List (κ × α) → κ → Option α
  | [], _ => none
  | (k, v) :: rest, key => if k = key then some v else alookup rest key

/-- Membership of a key, the model of Python `key in dict`. -/
def hasKey {κ α : Type} [DecidableEq κ] (l : List (κ × α)) (k : κ) : Bool :=
  (alookup l k).isSome

/-- Python `obj.get(k)` on a JSON object (`none` when absent or not a dict). -/
def jget (o : JValue) (k : String) : Option JValue :=
  match o with
  | .jobj kvs => alookup kvs k
  | _ => none

/-- Python `obj.get(k, d)` with a default. -/
def jgetD (o : JValue) (k : String) (d : JValue) : JValue :=
  (jget o k).getD d

/-- Stable insertion of `x` into a list that is already sorted by `le`. -/
def insertLe {α : Type} (le : α → α → Bool) (x : α) : List α → List α
  | [] => [x]
  | y :: ys => if le x y then x :: y :: ys else y :: insertLe le x ys

/-- Stable insertion sort; the model of Python `sorted` (Timsort is stable,
and insertion sort with a non-strict `le` is stable as well). -/
def insSort {α : Type} (le : α → α → Bool) : List α → List α
  | [] => []
  | x :: xs => insertLe le x (insSort le xs)

/-- Python `sorted` on int lists. -/
def sortedInts (xs : List Int) : List Int := insSort (fun a b => a ≤ b) xs

/-- Lexicographic `<` on char lists by code point, as Python compares strings. -/
def chListLt : List Char → List Char → Bool
  | [], [] => false
  | [], _ :: _ => true
  | _ :: _, [] => false
  | a :: as, b :: bs => if a < b then true else if b < a then false else chListLt as bs

/-- Python string `<`. -/
def pyStrLt (a b : String) : Bool := chListLt a.toList b.toList

/-- Python string `≤` (total order, so `a ≤ b ↔ ¬ b < a`). -/
def pyStrLe (a b : String) : Bool := !pyStrLt b a

/-- The denylist `DISALLOWED_QUOTE_CHARS`. -/
def DISALLOWED_QUOTE_CHARS : List Char :=
  ['‘', '’', '“', '”', '′', '″', '´']

/-- Embedding of `_line_col_from_index`: 1-based line and column of a
character index. -/
def line_col_from_index (text : String) (idx : Nat) : Nat × Nat :=
  let pre := text.toList.take idx
  (pre.count (Char.ofNat 10) + 1, (pre.reverse.takeWhile (fun c => c ≠ Char.ofNat 10)).length + 1)

/-- Embedding of `scan_for_disallowed_quotes`. -/
def scan_for_disallowed_quotes (path : String) (raw_text : String) : List Issue :=
  raw_text.toList.enum.filterMap (fun p =>
    if p.2 ∈ DISALLOWED_QUOTE_CHARS then
      let lc := line_col_from_index raw_text p.1
      some ⟨"ERROR", "1.4.2",
        path ++ ": disallowed quote/apostrophe character " ++ pyStrRepr (String.singleton p.2)
          ++ " at line " ++ toString lc.1 ++ ", col " ++ toString lc.2
          ++ ". Use ASCII \x27 and \" only."⟩
    else none)

/-- Singleton issue list when `c` holds, else empty; the model of a guarded
`issues.append(...)`. -/
def optIf (c : Bool) (i : Issue) : List Issue := if c then [i] else []

/-- Embedding of `_validate_bounds_for_house` (requirements 2.3.5.* and the
per-house parts of 2.3.6.*). -/
def validate_bounds_for_house (hn : Int) (h : JValue) : List Issue :=
  match jgetD h "bounds" jnull with
  | .jobj kvs =>
    let missing_keys := ["x", "z", "xsize", "zsize"].filter (fun k => !hasKey kvs k)
    if missing_keys ≠ [] then
      [⟨"ERROR", "2.3.5.2", "houses.json: house " ++ toString hn ++ " bounds missing key(s): "
        ++ strListRepr missing_keys ++ "."⟩]
    else
      let x := (alookup kvs "x").getD jnull
      let z := (alookup kvs "z").getD jnull
      let xsize := (alookup kvs "xsize").getD jnull
      let zsize := (alookup kvs "zsize").getD jnull
      if !is_number x || !is_number z || !is_number xsize || !is_int zsize then
        [⟨"ERROR", "2.3.5.2", "houses.json: house " ++ toString hn
          ++ " bounds must have numeric x/z/xsize and integer zsize; got x=" ++ pyRepr x
          ++ ", z=" ++ pyRepr z ++ ", xsize=" ++ pyRepr xsize ++ ", zsize=" ++ pyRepr zsize ++ "."⟩]
      else
        let x_f := toQ x
        let z_f := toQ z
        let xsize_f := toQ xsize
        let zsize_i := intOf zsize
        optIf (qlt x_f (qneg EPS) || qlt (qadd 70 EPS) x_f)
          ⟨"ERROR", "2.3.5.2.1", "houses.json: house " ++ toString hn ++ " bounds.x="
            ++ pyStr x ++ " out of range [0,70]."⟩
        ++ optIf (qlt z_f (qneg EPS) || qlt (qadd 200 EPS) z_f)
          ⟨"ERROR", "2.3.5.2.2", "houses.json: house " ++ toString hn ++ " bounds.z="
            ++ pyStr z ++ " out of range [0,200]."⟩
        ++ optIf (!approx_equal xsize_f 30)
          ⟨"ERROR", "2.3.5.2.3", "houses.json: house " ++ toString hn
            ++ " bounds.xsize must be 30, got " ++ pyRepr xsize ++ "."⟩
        ++ optIf (!(10 ≤ zsize_i && zsize_i ≤ 16))
          ⟨"ERROR", "2.3.5.2.3", "houses.json: house " ++ toString hn
            ++ " bounds.zsize must be integer in [10,16], got " ++ pyRepr zsize ++ "."⟩
        ++ optIf (qlt (qadd 70 EPS) (qadd x_f xsize_f))
          ⟨"ERROR", "2.3.5.2.4", "houses.json: house " ++ toString hn ++ " bounds.x + xsize = "
            ++ qRepr (qadd x_f xsize_f) ++ " exceeds 70."⟩
        ++ optIf (qlt (qadd 200 EPS) (qadd z_f (zsize_i : Rat)))
          ⟨"ERROR", "2.3.5.2.5", "houses.json: house " ++ toString hn ++ " bounds.z + zsize = "
            ++ qRepr (qadd z_f (zsize_i : Rat)) ++ " exceeds 200."⟩
        ++ (if hn % 2 = 0 then
            optIf (!approx_equal x_f 0)
              ⟨"ERROR", "2.3.6.3.1", "houses.json: even house " ++ toString hn
                ++ " must have bounds.x=0, got " ++ pyRepr x ++ "."⟩
            ++ optIf (!approx_equal xsize_f 30)
              ⟨"ERROR", "2.3.6.3.1", "houses.json: even house " ++ toString hn
                ++ " must have bounds.xsize=30, got " ++ pyRepr xsize ++ "."⟩
          else
            optIf (!approx_equal x_f 40)
              ⟨"ERROR", "2.3.6.3.2", "houses.json: odd house " ++ toString hn
                ++ " must have bounds.x=40, got " ++ pyRepr x ++ "."⟩
            ++ optIf (!approx_equal xsize_f 30)
              ⟨"ERROR", "2.3.6.3.2", "houses.json: odd house " ++ toString hn
                ++ " must have bounds.xsize=30, got " ++ pyRepr xsize ++ "."⟩)
  | _ => [⟨"ERROR", "2.3.5.1", "houses.json: house " ++ toString hn
      ++ " missing/invalid bounds object."⟩]

/-- Gap/overlap error of the contiguity walk (requirement 2.3.6.4.3). -/
def gapIssue (side_label : String) (hn : Int) (z_f expected_z : Rat) : Issue :=
  ⟨"ERROR", "2.3.6.4.3", side_label ++ ": house " ++ toString hn ++ " bounds.z="
    ++ qRepr z_f ++ " but expected " ++ qRepr expected_z ++ " (gap/overlap)."⟩

/-- Data the contiguity walk reads from one house: `(float(z), int(zsize))`
when the house has a bounds dict with numeric `z` and true-integer `zsize`,
`none` when the walk skips the house (`continue` in the source). -/
def sideHouseData (houses_by_number : List (Int × JValue)) (hn : Int) : Option (Rat × Int) :=
  match jgetD ((alookup houses_by_number hn).getD (jobj [])) "bounds" jnull with
  | .jobj kvs =>
    let z := (alookup kvs "z").getD jnull
    let zsize := (alookup kvs "zsize").getD jnull
    if !is_number z || !is_int zsize then none else some (toQ z, intOf zsize)
  | _ => none

/-- Recursive body of `side_check`: the contiguity walk over one parity side.
State: running expected-z.  Returns the issues, the collected `zsizes` and the
final running value. -/
def side_walk (houses_by_number : List (Int × JValue)) (side_label : String) :
    Rat → List Int → List Issue × List Int × Rat
  | expected_z, [] => ([], [], expected_z)
  | expected_z, hn :: rest =>
    match sideHouseData houses_by_number hn with
    | some zd =>
      let gap := optIf (!approx_equal zd.1 expected_z) (gapIssue side_label hn zd.1 expected_z)
      let resync := if !approx_equal zd.1 expected_z then zd.1 else expected_z
      let r := side_walk houses_by_number side_label (qadd resync (zd.2 : Rat)) rest
      (gap ++ r.1, zd.2 :: r.2.1, r.2.2)
    | none => side_walk houses_by_number side_label expected_z rest

/-- Embedding of the inner function `side_check` of `validate_street_geometry`
(walk plus the final sum-to-200 constraint). -/
def side_check (houses_by_number : List (Int × JValue)) (side_hns : List Int)
    (side_label : String) : List Issue × List Int :=
  let r := side_walk houses_by_number side_label 0 side_hns
  (r.1 ++ optIf (!approx_equal r.2.2 200)
    ⟨"ERROR", "2.3.6.5", side_label ++ ": z-lengths sum/end at " ++ qRepr r.2.2
      ++ ", expected 200."⟩, r.2.1)

/-- The list `range(0, 30, 2)`. -/
def even_expected : List Int := [0, 2, 4, 6, 8, 10, 12, 14, 16, 18, 20, 22, 24, 26, 28]

/-- The list `range(1, 30, 2)`. -/
def odd_expected : List Int := [1, 3, 5, 7, 9, 11, 13, 15, 17, 19, 21, 23, 25, 27, 29]

/-- The 3.4 zero-variance advisory for one side. -/
def varianceWarn (side_name : String) (zsizes : List Int) : List Issue :=
  match zsizes with
  | [] => []
  | z0 :: zrest =>
    if zrest.all (fun a => a = z0) then
      [⟨"WARN", "3.4", side_name ++ ": all house zsize values are identical (" ++ toString z0
        ++ "). Requirement 3.4 suggests some variance."⟩]
    else []

/-- Embedding of `validate_street_geometry`. -/
def validate_street_geometry (houses_by_number : List (Int × JValue)) : List Issue :=
  let even_present := even_expected.filter (fun hn => hasKey houses_by_number hn)
  let odd_present := odd_expected.filter (fun hn => hasKey houses_by_number hn)
  (if even_present ≠ even_expected then
    let missing := even_expected.filter (fun hn => !hasKey houses_by_number hn)
    optIf (missing ≠ [])
      ⟨"ERROR", "2.3.6.4.1", "Even side missing houseNumber(s): " ++ intListRepr missing ++ "."⟩
  else [])
  ++ (if odd_present ≠ odd_expected then
    let missing := odd_expected.filter (fun hn => !hasKey houses_by_number hn)
    optIf (missing ≠ [])
      ⟨"ERROR", "2.3.6.4.2", "Odd side missing houseNumber(s): " ++ intListRepr missing ++ "."⟩
  else [])
  ++ (if even_expected.all (fun hn => hasKey houses_by_number hn) then
    let r := side_check houses_by_number even_expected "Even side (2.3.6.4.1)"
    r.1 ++ varianceWarn "Even side" r.2
  else [])
  ++ (if odd_expected.all (fun hn => hasKey houses_by_number hn) then
    let r := side_check houses_by_number odd_expected "Odd side (2.3.6.4.2)"
    r.1 ++ varianceWarn "Odd side" r.2
  else [])

/-- First occurrence of each element, in order; the model of iterating a
`Counter` (which preserves first-insertion order). -/
def firstDistinctAux {α : Type} [DecidableEq α] : List α → List α → List α
  | _, [] => []
  | seen, x :: xs =>
    if x ∈ seen then firstDistinctAux seen xs else x :: firstDistinctAux (x :: seen) xs

/-- First-occurrence deduplication. -/
def firstDistinct {α : Type} [DecidableEq α] (l : List α) : List α := firstDistinctAux [] l

/-- Python dict repr of string-to-count entries, e.g. a `Counter` filtered to
duplicates. -/
def strCountRepr (entries : List (String × Nat)) : String :=
  lcurl ++ String.intercalate ", " (entries.map (fun e => pyStrRepr e.1 ++ ": " ++ toString e.2))
    ++ rcurl

/-- Per-entry body of the `validate_houses` loop.  Returns the issues for the
entry, the houseNumber to record in `seen_numbers` (when reached) and the
entry to add to `by_number` (when not skipped by a `continue`). -/
def house_entry (idx : Nat) (seen_numbers : List Int) (h : JValue) :
    List Issue × Option Int × Option (Int × JValue) :=
  match h with
  | .jobj _ =>
    let hnv := jgetD h "houseNumber" jnull
    if !is_int hnv then
      ([⟨"ERROR", "2.3.1", "houses.json: entry index " ++ toString idx
        ++ " missing/invalid houseNumber."⟩], none, none)
    else
      let hn := intOf hnv
      let rangeIssues := optIf (hn < 0 || hn > 29)
        ⟨"ERROR", "2.3.1", "houses.json: houseNumber " ++ toString hn ++ " out of range 0..29."⟩
      if hn ∈ seen_numbers then
        (rangeIssues ++ [⟨"ERROR", "2.3.1", "houses.json: duplicate houseNumber "
          ++ toString hn ++ "."⟩], none, none)
      else
        match jgetD h "occupants" jnull with
        | .jarr occupants =>
          if occupants.isEmpty then
            (rangeIssues ++ [⟨"ERROR", "2.3.3/2.3.4", "houses.json: house " ++ toString hn
              ++ " missing/invalid occupants list."⟩], some hn, none)
          else
            let occIssues :=
              optIf (!(1 ≤ occupants.length && occupants.length ≤ 6))
                ⟨"ERROR", "2.3.4", "houses.json: house " ++ toString hn ++ " occupants count "
                  ++ toString occupants.length ++ " not in [1, 6]."⟩
              ++ occupants.filterMap (fun occ =>
                if !is_int occ then
                  some ⟨"ERROR", "2.3.3", "houses.json: house " ++ toString hn
                    ++ " has non-integer occupant id: " ++ pyRepr occ ++ "."⟩
                else none)
            let surnameIssues :=
              if hn = 7 then
                (match h with
                  | .jobj kvs => optIf (hasKey kvs "surname")
                      ⟨"ERROR", "2.3.2.1", "houses.json: house 7 must not define \x27surname\x27."⟩
                  | _ => [])
                ++ optIf (!(match occupants with
                    | [o] => pyEqInt o 0
                    | _ => false))
                  ⟨"ERROR", "2.4", "houses.json: house 7 occupants must be [0], got "
                    ++ pyRepr (jarr occupants) ++ "."⟩
              else
                match jgetD h "surname" jnull with
                | .jstr s =>
                  if s.trim = "" then
                    [⟨"ERROR", "2.3.2", "houses.json: house " ++ toString hn
                      ++ " missing/invalid surname."⟩]
                  else
                    optIf (!nameReMatch s.trim)
                      ⟨"WARN", "2.3.2", "houses.json: house " ++ toString hn ++ " surname "
                        ++ pyStrRepr s ++ " contains non A-Za-z characters."⟩
                | _ => [⟨"ERROR", "2.3.2", "houses.json: house " ++ toString hn
                    ++ " missing/invalid surname."⟩]
            (rangeIssues ++ occIssues ++ surnameIssues ++ validate_bounds_for_house hn h,
              some hn, some (hn, h))
        | _ =>
          (rangeIssues ++ [⟨"ERROR", "2.3.3/2.3.4", "houses.json: house " ++ toString hn
            ++ " missing/invalid occupants list."⟩], some hn, none)
  | _ => ([⟨"ERROR", "2.3", "houses.json: entry index " ++ toString idx
      ++ " is not an object."⟩], none, none)

/-- The `validate_houses` loop over enumerated entries, threading
`seen_numbers` and `by_number`. -/
def validate_houses_loop : Nat → List JValue → List Int → List (Int × JValue) →
    List Int × List (Int × JValue) × List Issue
  | _, [], seen, by_number => (seen, by_number, [])
  | idx, h :: rest, seen, by_number =>
    let r := house_entry idx seen h
    let seen' := match r.2.1 with
      | some hn => seen ++ [hn]
      | none => seen
    let byn' := match r.2.2 with
      | some e => by_number ++ [e]
      | none => by_number
    let rec' := validate_houses_loop (idx + 1) rest seen' byn'
    (rec'.1, rec'.2.1, r.1 ++ rec'.2.2)

/-- Embedding of `validate_houses`: returns `(houses_by_number, issues)`. -/
def validate_houses (houses : JValue) : List (Int × JValue) × List Issue :=
  match houses with
  | .jarr hs =>
    let countIssues := optIf (hs.length ≠ 30)
      ⟨"ERROR", "2.3", "houses.json: expected 30 houses, found " ++ toString hs.length ++ "."⟩
    let r := validate_houses_loop 0 hs [] []
    let seen := r.1
    let by_number := r.2.1
    let missing := (List.range 30).filterMap (fun n =>
      if (n : Int) ∈ seen then none else some (n : Int))
    let missingIssues := optIf (missing ≠ [])
      ⟨"ERROR", "2.3.1", "houses.json: missing houseNumber(s): " ++ intListRepr missing ++ "."⟩
    let surnames := by_number.filterMap (fun e =>
      if e.1 = (7 : Int) then none
      else match jgetD e.2 "surname" jnull with
        | .jstr s => if s.trim ≠ "" then some s.trim else none
        | _ => none)
    let dup := (firstDistinct surnames).filterMap (fun s =>
      if surnames.count s > 1 then some (s, surnames.count s) else none)
    let dupIssues := optIf (dup ≠ [])
      ⟨"ERROR", "2.5", "houses.json: duplicate house surnames detected: "
        ++ strCountRepr dup ++ "."⟩
    (by_number, countIssues ++ r.2.2 ++ missingIssues ++ dupIssues
      ++ validate_street_geometry by_number)
  | _ => ([], [⟨"ERROR", "2.3", "houses.json: expected a top-level JSON array."⟩])

/-- Null test, the model of Python `x is None` on parsed values. -/
def isNull : JValue → Bool
  | .jnull => true
  | _ => false

/-- Sorted rendering of `ACCENT_ENUM` as Python prints it. -/
def accentEnumRepr : String :=
  strListRepr ["African", "Canadian", "Chinese", "MiddleEastern", "SouthAsian"]

/-- Membership in `ACCENT_ENUM` (a set of five strings). -/
def inAccentEnum : JValue → Bool
  | .jstr s => s = "Canadian" || s = "SouthAsian" || s = "Chinese" || s = "African"
      || s = "MiddleEastern"
  | _ => false

/-- Validation of one `personalityTraits`/`interests`-style field: a list of
exactly `n` non-empty strings, with a duplicate advisory. -/
def traitsIssues (cid : Int) (field req : String) (n : Nat) (v : JValue) : List Issue :=
  match v with
  | .jarr ts =>
    if ts.length ≠ n
        || !ts.all (fun t => match t with | .jstr s => s.trim ≠ "" | _ => false) then
      [⟨"ERROR", req, "NPC id=" ++ toString cid ++ ": " ++ field
        ++ " must be a list of 3 strings."⟩]
    else
      let norms := ts.filterMap (fun t => match t with
        | .jstr s => some (normalize_case s)
        | _ => none)
      optIf ((firstDistinct norms).length ≠ n)
        ⟨"WARN", req, "NPC id=" ++ toString cid ++ ": " ++ field
          ++ " contains duplicates: " ++ pyRepr (jarr ts)⟩
  | _ => [⟨"ERROR", req, "NPC id=" ++ toString cid ++ ": " ++ field
      ++ " must be a list of 3 strings."⟩]

/-- Per-entry body of the `validate_characters` loop.  Returns the issues of
the entry and the updated `by_id`, `first_names_ci` and `handles_ci` maps. -/
def char_entry (idx : Nat) (by_id : List (Int × JValue)) (first_names_ci : List (String × Int))
    (handles_ci : List (String × Int)) (c : JValue) :
    List Issue × List (Int × JValue) × List (String × Int) × List (String × Int) :=
  match c with
  | .jobj _ =>
    let cidv := jgetD c "id" jnull
    if !is_int cidv then
      ([⟨"ERROR", "2.2.1", "characters.json: entry index " ++ toString idx
        ++ " missing/invalid integer id."⟩], by_id, first_names_ci, handles_ci)
    else
      let cid := intOf cidv
      let playerIssues := optIf (cid = 0)
        ⟨"ERROR", "2.4.1", "characters.json: player id=0 must NOT appear in characters.json."⟩
      if hasKey by_id cid then
        (playerIssues ++ [⟨"ERROR", "2.2.1", "characters.json: duplicate NPC id="
          ++ toString cid ++ "."⟩], by_id, first_names_ci, handles_ci)
      else
        let by_id' := by_id ++ [(cid, c)]
        let fn := jgetD c "firstName" jnull
        let ln := jgetD c "lastName" jnull
        let fnRes : List Issue × List (String × Int) :=
          match fn with
          | .jstr s =>
            if s.trim = "" then
              ([⟨"ERROR", "2.2.2", "NPC id=" ++ toString cid
                ++ ": missing/invalid firstName."⟩], first_names_ci)
            else
              let shapeIssues := optIf (!nameReMatch s.trim)
                ⟨"ERROR", "2.2.2", "NPC id=" ++ toString cid ++ ": firstName " ++ pyStrRepr s
                  ++ " has non A-Za-z characters."⟩
              let key := normalize_case s
              match alookup first_names_ci key with
              | some prev =>
                (shapeIssues ++ [⟨"ERROR", "2.6", "NPC id=" ++ toString cid ++ ": firstName "
                  ++ pyStrRepr s ++ " duplicates NPC id=" ++ toString prev
                  ++ " (case-insensitive)."⟩], first_names_ci)
              | none => (shapeIssues, first_names_ci ++ [(key, cid)])
          | _ => ([⟨"ERROR", "2.2.2", "NPC id=" ++ toString cid
              ++ ": missing/invalid firstName."⟩], first_names_ci)
        let lnIssues : List Issue :=
          match ln with
          | .jstr s =>
            if s.trim = "" then
              [⟨"ERROR", "2.2.2", "NPC id=" ++ toString cid ++ ": missing/invalid lastName."⟩]
            else
              optIf (!nameReMatch s.trim)
                ⟨"ERROR", "2.2.2", "NPC id=" ++ toString cid ++ ": lastName " ++ pyStrRepr s
                  ++ " has non A-Za-z characters."⟩
          | _ => [⟨"ERROR", "2.2.2", "NPC id=" ++ toString cid ++ ": missing/invalid lastName."⟩]
        let gender := jgetD c "gender" jnull
        let genderIssues := optIf (!(match gender with
            | .jstr s => s = "M" || s = "F"
            | _ => false))
          ⟨"ERROR", "2.2.3", "NPC id=" ++ toString cid ++ ": gender must be \x27M\x27 or \x27F\x27, got "
            ++ pyRepr gender ++ "."⟩
        let age := jgetD c "age" jnull
        let ageIssues :=
          if !is_int age then
            [⟨"ERROR", "2.2.4", "NPC id=" ++ toString cid ++ ": age must be an integer, got "
              ++ pyRepr age ++ "."⟩]
          else
            optIf (intOf age ≤ 5)
              ⟨"ERROR", "2.2.4.2", "NPC id=" ++ toString cid ++ ": age=" ++ toString (intOf age)
                ++ " is not allowed (must be >= 6)."⟩
        let accent := jgetD c "accentLanguage" jnull
        let accentIssues := optIf (!inAccentEnum accent)
          ⟨"ERROR", "2.2.5", "NPC id=" ++ toString cid ++ ": accentLanguage must be one of "
            ++ accentEnumRepr ++ ", got " ++ pyRepr accent ++ "."⟩
        let career := jgetD c "career" jnull
        let careerIssues := optIf (!(match career with
            | .jstr s => s.trim ≠ ""
            | _ => false))
          ⟨"ERROR", "2.2.6", "NPC id=" ++ toString cid ++ ": missing/invalid career."⟩
        let religion := jgetD c "religion" jnull
        let religionIssues := optIf (!(match religion with
            | .jstr s => s.trim ≠ "" && religionReMatch s.trim
            | _ => false))
          ⟨"ERROR", "2.2.7", "NPC id=" ++ toString cid ++ ": religion must be a single word, got "
            ++ pyRepr religion ++ "."⟩
        let traitIssues := traitsIssues cid "personalityTraits" "2.2.9"
          3 (jgetD c "personalityTraits" jnull)
        let interestIssues := traitsIssues cid "interests" "2.2.10" 3 (jgetD c "interests" jnull)
        let about := jgetD c "about" jnull
        let aboutIssues := optIf (!(match about with
            | .jarr xs => xs.length = 5
                && xs.all (fun a => match a with | .jstr s => s.trim ≠ "" | _ => false)
            | _ => false))
          ⟨"ERROR", "2.2.11", "NPC id=" ++ toString cid
            ++ ": about must be a list of exactly 5 non-empty strings."⟩
        let smRes : List Issue × List (String × Int) :=
          match jgetD c "socialMedia" jnull with
          | .jobj smkvs =>
            let handle := (alookup smkvs "handle").getD jnull
            let bio := (alookup smkvs "bio").getD jnull
            let followers := (alookup smkvs "followers").getD jnull
            let following := (alookup smkvs "following").getD jnull
            let handleRes : List Issue × List (String × Int) :=
              match handle with
              | .jstr s =>
                if s.trim = "" then
                  ([⟨"ERROR", "2.2.12.1", "NPC id=" ++ toString cid
                    ++ ": socialMedia.handle missing/invalid."⟩], handles_ci)
                else
                  let atIssues := optIf (s.toList.contains '@')
                    ⟨"ERROR", "2.2.12.1", "NPC id=" ++ toString cid
                      ++ ": socialMedia.handle must not include \x27@\x27: " ++ pyStrRepr s ++ "."⟩
                  let hkey := normalize_case s
                  match alookup handles_ci hkey with
                  | some prev =>
                    (atIssues ++ [⟨"ERROR", "2.7", "NPC id=" ++ toString cid
                      ++ ": socialMedia.handle " ++ pyStrRepr s ++ " duplicates NPC id="
                      ++ toString prev ++ " (case-insensitive)."⟩], handles_ci)
                  | none => (atIssues, handles_ci ++ [(hkey, cid)])
              | _ => ([⟨"ERROR", "2.2.12.1", "NPC id=" ++ toString cid
                  ++ ": socialMedia.handle missing/invalid."⟩], handles_ci)
            let bioIssues := optIf (!(match bio with
                | .jstr s => s.trim ≠ ""
                | _ => false))
              ⟨"ERROR", "2.2.12.2", "NPC id=" ++ toString cid
                ++ ": socialMedia.bio missing/invalid."⟩
            let followersIssues := optIf (!is_int followers || intOf followers < 0)
              ⟨"ERROR", "2.2.12.3", "NPC id=" ++ toString cid
                ++ ": socialMedia.followers must be int >=0."⟩
            let followingIssues := optIf (!is_int following || intOf following < 0)
              ⟨"ERROR", "2.2.12.4", "NPC id=" ++ toString cid
                ++ ": socialMedia.following must be int >=0."⟩
            (handleRes.1 ++ bioIssues ++ followersIssues ++ followingIssues, handleRes.2)
          | _ => ([⟨"ERROR", "2.2.12", "NPC id=" ++ toString cid
              ++ ": missing/invalid socialMedia object."⟩], handles_ci)
        let famIssues : List Issue :=
          match jgetD c "family" jnull with
          | .jobj famkvs =>
            let extra_keys := insSort pyStrLe ((firstDistinct (famkvs.map Prod.fst)).filter
              (fun k => k ≠ "spouse" && k ≠ "children"))
            let extraIssues := optIf (extra_keys ≠ [])
              ⟨"ERROR", "2.2.8.1", "NPC id=" ++ toString cid ++ ": family has unsupported keys "
                ++ strListRepr extra_keys ++ " (allowed: spouse, children)."⟩
            let spouse := (alookup famkvs "spouse").getD jnull
            let children := (alookup famkvs "children").getD jnull
            let spouseIntIssues := optIf (!is_int spouse)
              ⟨"ERROR", "2.2.8", "NPC id=" ++ toString cid
                ++ ": family.spouse must be an int (or -1)."⟩
            let spouseSelfIssues := optIf (pyEqInt spouse cid)
              ⟨"ERROR", "2.2.8", "NPC id=" ++ toString cid ++ ": family.spouse cannot be self."⟩
            let spousePlayerIssues := optIf (!isNull spouse && is_int spouse
                && intOf spouse ≠ -1 && pyEqInt spouse 0)
              ⟨"ERROR", "2.4.1", "NPC id=" ++ toString cid
                ++ ": family.spouse references player id=0."⟩
            let childIssues : List Issue :=
              match children with
              | .jarr chs =>
                if !chs.all is_int then
                  [⟨"ERROR", "2.2.8", "NPC id=" ++ toString cid
                    ++ ": family.children must be a list of integer ids."⟩]
                else
                  optIf (chs.any (fun ch => pyEqInt ch 0))
                    ⟨"ERROR", "2.4.1", "NPC id=" ++ toString cid
                      ++ ": family.children references player id=0."⟩
                  ++ optIf (chs.any (fun ch => pyEqInt ch cid))
                    ⟨"ERROR", "2.2.8", "NPC id=" ++ toString cid
                      ++ ": family.children cannot contain self."⟩
              | _ => [⟨"ERROR", "2.2.8", "NPC id=" ++ toString cid
                  ++ ": family.children must be a list of integer ids."⟩]
            extraIssues ++ spouseIntIssues ++ spouseSelfIssues ++ spousePlayerIssues ++ childIssues
          | _ => [⟨"ERROR", "2.2.8", "NPC id=" ++ toString cid ++ ": missing/invalid family object."⟩]
        (playerIssues ++ fnRes.1 ++ lnIssues ++ genderIssues ++ ageIssues ++ accentIssues
          ++ careerIssues ++ religionIssues ++ traitIssues ++ interestIssues ++ aboutIssues
          ++ smRes.1 ++ famIssues, by_id', fnRes.2, smRes.2)
  | _ => ([⟨"ERROR", "2.2", "characters.json: entry index " ++ toString idx
      ++ " is not an object."⟩], by_id, first_names_ci, handles_ci)

/-- The `validate_characters` loop over enumerated entries. -/
def validate_characters_loop : Nat → List JValue → List (Int × JValue) → List (String × Int) →
    List (String × Int) → List (Int × JValue) × List Issue
  | _, [], by_id, _, _ => (by_id, [])
  | idx, c :: rest, by_id, fnci, hci =>
    let r := char_entry idx by_id fnci hci c
    let rec' := validate_characters_loop (idx + 1) rest r.2.1 r.2.2.1 r.2.2.2
    (rec'.1, r.1 ++ rec'.2)

/-- Embedding of `validate_characters`: returns `(chars_by_id, issues)`. -/
def validate_characters (characters : JValue) : List (Int × JValue) × List Issue :=
  match characters with
  | .jarr cs =>
    let countIssues := optIf (!(70 ≤ cs.length && cs.length ≤ 80))
      ⟨"ERROR", "2.1/2.4.1", "characters.json: expected 70..80 NPC entries, found "
        ++ toString cs.length ++ "."⟩
    let r := validate_characters_loop 0 cs [] [] []
    (r.1, countIssues ++ r.2)
  | _ => ([], [⟨"ERROR", "2.2", "characters.json: expected a top-level JSON array."⟩])

/-- Embedding of the `spouse_of` index: `cid → spouse` for every character
whose `family.spouse` is a true integer other than `-1`. -/
def spouse_of (chars_by_id : List (Int × JValue)) : List (Int × Int) :=
  chars_by_id.filterMap (fun e =>
    let spouse := jgetD (jgetD e.2 "family" (jobj [])) "spouse" jnull
    if is_int spouse && intOf spouse ≠ -1 then some (e.1, intOf spouse) else none)

/-- Python `set.add` on an insertion-ordered duplicate-free list. -/
def setAdd (l : List Int) (x : Int) : List Int := if x ∈ l then l else l ++ [x]

/-- `defaultdict(set)` update `m[k].add(x)`. -/
def mapAdd {κ : Type} [DecidableEq κ] (m : List (κ × List Int)) (k : κ) (x : Int) :
    List (κ × List Int) :=
  if hasKey m k then m.map (fun e => if e.1 = k then (e.1, setAdd e.2 x) else e)
  else m ++ [(k, [x])]

/-- `defaultdict(list)` update `m[k].append(x)`. -/
def listMapAdd {κ : Type} [DecidableEq κ] (m : List (κ × List Int)) (k : κ) (x : Int) :
    List (κ × List Int) :=
  if hasKey m k then m.map (fun e => if e.1 = k then (e.1, e.2 ++ [x]) else e)
  else m ++ [(k, [x])]

/-- Collection of the parent/child links: builds `children_of_parent` and
`parents_of_child` in one pass over `chars_by_id`, as the source loop does. -/
def childLinksAux : List (Int × JValue) → List (Int × List Int) × List (Int × List Int) →
    List (Int × List Int) × List (Int × List Int)
  | [], acc => acc
  | e :: rest, acc =>
    match jgetD (jgetD e.2 "family" (jobj [])) "children" jnull with
    | .jarr chs =>
      childLinksAux rest (chs.foldl (fun acc2 ch =>
        if is_int ch then (mapAdd acc2.1 e.1 (intOf ch), mapAdd acc2.2 (intOf ch) e.1)
        else acc2) acc)
    | _ => childLinksAux rest acc

/-- Embedding of the `children_of_parent` index. -/
def children_of_parent (chars_by_id : List (Int × JValue)) : List (Int × List Int) :=
  (childLinksAux chars_by_id ([], [])).1

/-- Embedding of the `parents_of_child` index. -/
def parents_of_child (chars_by_id : List (Int × JValue)) : List (Int × List Int) :=
  (childLinksAux chars_by_id ([], [])).2

/-- The inverted spouse map `reverse_spouse`. -/
def reverse_spouse (sp : List (Int × Int)) : List (Int × List Int) :=
  sp.foldl (fun m ab => listMapAdd m ab.2 ab.1) []

/-- Recorded `family.spouse` value of character `b`, exactly as the symmetry
check reads it: `chars_by_id[b].get("family", \x7b\x7d).get("spouse")`. -/
def recorded_spouse (chars_by_id : List (Int × JValue)) (b : Int) : JValue :=
  jgetD (jgetD ((alookup chars_by_id b).getD jnull) "family" (jobj [])) "spouse" jnull

/-- Recorded `age` of an existing character, as the age-gap check reads it. -/
def child_age (chars_by_id : List (Int × JValue)) (ch : Int) : JValue :=
  jgetD ((alookup chars_by_id ch).getD jnull) "age" jnull

/-- Recorded `age` of a parent, read with the `\x7b\x7d` default as in the
parent loop. -/
def parent_age (chars_by_id : List (Int × JValue)) (p : Int) : JValue :=
  jgetD ((alookup chars_by_id p).getD (jobj [])) "age" jnull

/-- Body of the per-link spouse validation loop of `build_relationship_indexes`
for one link `a → b`: existence, symmetry, gender rule, age rule. -/
def spouse_pair_issues (chars_by_id : List (Int × JValue)) (a b : Int) : List Issue :=
  if !hasKey chars_by_id b then
    [⟨"ERROR", "2.2.8", "NPC id=" ++ toString a ++ ": spouse id=" ++ toString b
      ++ " does not exist in characters.json."⟩]
  else
    optIf (!(is_int (recorded_spouse chars_by_id b)
        && intOf (recorded_spouse chars_by_id b) = a))
      ⟨"ERROR", "2.2.8", "NPC id=" ++ toString a ++ ": spouse id=" ++ toString b
        ++ " is not symmetric (NPC id=" ++ toString b ++ " has family.spouse="
        ++ pyRepr (recorded_spouse chars_by_id b) ++ ")."⟩
    ++ (let a_gender := jgetD ((alookup chars_by_id a).getD jnull) "gender" jnull
        let b_gender := jgetD ((alookup chars_by_id b).getD jnull) "gender" jnull
        optIf (match a_gender, b_gender with
          | .jstr sa, .jstr sb => (sa = "M" || sa = "F") && (sb = "M" || sb = "F") && sa = sb
          | _, _ => false)
          ⟨"ERROR", "2.2.8.2", "Marriage gender violation: NPC id=" ++ toString a ++ " gender="
            ++ pyStr a_gender ++ " married to NPC id=" ++ toString b ++ " gender="
            ++ pyStr b_gender ++ "."⟩)
    ++ (let a_age := jgetD ((alookup chars_by_id a).getD jnull) "age" jnull
        let b_age := jgetD ((alookup chars_by_id b).getD jnull) "age" jnull
        optIf (is_int a_age && intOf a_age < 18)
          ⟨"ERROR", "2.2.8.4", "NPC id=" ++ toString a ++ ": married but age="
            ++ pyStr a_age ++ " (<18)."⟩
        ++ optIf (is_int b_age && intOf b_age < 18)
          ⟨"ERROR", "2.2.8.4", "NPC id=" ++ toString b ++ ": married but age="
            ++ pyStr b_age ++ " (<18)."⟩)

/-- Body of the parent/child validation loop for one pair `(p, ch)`, given the
already looked-up parent age: child existence, then age gap. -/
def parent_child_pair_issues (chars_by_id : List (Int × JValue)) (p_age : JValue)
    (p ch : Int) : List Issue :=
  if !hasKey chars_by_id ch then
    [⟨"ERROR", "2.2.8", "NPC id=" ++ toString p ++ ": references non-existent child id="
      ++ toString ch ++ "."⟩]
  else
    optIf (is_int p_age && is_int (child_age chars_by_id ch)
        && intOf p_age - intOf (child_age chars_by_id ch) < 18)
      ⟨"ERROR", "2.2.8.6", "Parent/child age gap violation: parent id=" ++ toString p
        ++ " age=" ++ pyStr p_age ++ ", child id=" ++ toString ch ++ " age="
        ++ pyStr (child_age chars_by_id ch) ++ " (must be >= 18 years older)."⟩

/-- Per-parent body of the children validation loop. -/
def parent_issues (chars_by_id : List (Int × JValue)) (p : Int) (kids : List Int) : List Issue :=
  optIf (is_int (parent_age chars_by_id p) && intOf (parent_age chars_by_id p) < 18)
    ⟨"ERROR", "2.2.8.5", "NPC id=" ++ toString p ++ ": has children but age="
      ++ pyStr (parent_age chars_by_id p) ++ " (<18)."⟩
  ++ kids.flatMap (parent_child_pair_issues chars_by_id (parent_age chars_by_id p) p)

/-- Per-child body of the parent-count/two-parent validation loop. -/
def child_parents_issues (chars_by_id : List (Int × JValue)) (ch : Int) (ps : List Int) :
    List Issue :=
  optIf (ps.length > 2)
    ⟨"ERROR", "2.2.8.1", "Child id=" ++ toString ch ++ ": has " ++ toString ps.length
      ++ " parents listed: " ++ intListRepr (sortedInts ps) ++ " (max 2)."⟩
  ++ (if ps.length = 2 then
      let p1 := (sortedInts ps).headD 0
      let p2 := ((sortedInts ps).drop 1).headD 0
      let g1 := jgetD ((alookup chars_by_id p1).getD jnull) "gender" jnull
      let g2 := jgetD ((alookup chars_by_id p2).getD jnull) "gender" jnull
      optIf (match g1, g2 with
        | .jstr s1, .jstr s2 => s1 = s2 && (s1 = "M" || s1 = "F")
        | _, _ => false)
        ⟨"ERROR", "2.2.8.2", "Child id=" ++ toString ch ++ ": two parents share same gender: parent "
          ++ toString p1 ++ " gender=" ++ pyStr g1 ++ ", parent " ++ toString p2 ++ " gender="
          ++ pyStr g2 ++ "."⟩
      ++ (let p1_sp := jgetD (jgetD ((alookup chars_by_id p1).getD jnull) "family" (jobj []))
            "spouse" jnull
          let p2_sp := jgetD (jgetD ((alookup chars_by_id p2).getD jnull) "family" (jobj []))
            "spouse" jnull
          optIf (!(is_int p1_sp && intOf p1_sp = p2 && is_int p2_sp && intOf p2_sp = p1))
            ⟨"WARN", "2.2.8.1", "Child id=" ++ toString ch ++ ": two parents " ++ toString p1
              ++ " and " ++ toString p2 ++ " are not mutually spouses (p1.spouse="
              ++ pyRepr p1_sp ++ ", p2.spouse=" ++ pyRepr p2_sp ++ ")."⟩)
    else [])

/-- Embedding of the issue list of `build_relationship_indexes` (the three
returned indexes are `spouse_of`, `parents_of_child`, `children_of_parent`). -/
def relationship_issues (chars_by_id : List (Int × JValue)) : List Issue :=
  ((reverse_spouse (spouse_of chars_by_id)).filterMap (fun e =>
    if e.2.length > 1 then
      some ⟨"ERROR", "2.2.8.3", "NPC id=" ++ toString e.1
        ++ ": multiple spouses reference this NPC: " ++ intListRepr (sortedInts e.2) ++ "."⟩
    else none))
  ++ (spouse_of chars_by_id).flatMap (fun ab => spouse_pair_issues chars_by_id ab.1 ab.2)
  ++ (children_of_parent chars_by_id).flatMap (fun e => parent_issues chars_by_id e.1 e.2)
  ++ (parents_of_child chars_by_id).flatMap (fun e => child_parents_issues chars_by_id e.1 e.2)

/-- Embedding of `build_house_index`: `occupant_id → houseNumber`, first
occurrence wins, in `houses_by_number` insertion order. -/
def build_house_index_aux : List (Int × JValue) → List (Int × Int) → List (Int × Int)
  | [], acc => acc
  | (hn, h) :: rest, acc =>
    match jgetD h "occupants" (jarr []) with
    | .jarr occs =>
      build_house_index_aux rest (occs.foldl (fun a occ =>
        if is_int occ && !hasKey a (intOf occ) then a ++ [(intOf occ, hn)] else a) acc)
    | _ => build_house_index_aux rest acc

/-- Top-level entry of `build_house_index`. -/
def build_house_index (houses_by_number : List (Int × JValue)) : List (Int × Int) :=
  build_house_index_aux houses_by_number []

/-- Python truthiness of a JSON value. -/
def pyTruthy : JValue → Bool
  | .jnull => false
  | .jbool b => b
  | .jint n => n ≠ 0
  | .jnum q => q ≠ 0
  | .jstr s => s ≠ ""
  | .jarr xs => !xs.isEmpty
  | .jobj kvs => !kvs.isEmpty

/-- Undirected relationship graphs over a set of house occupants, as built by
the inner function `related_edges` of `validate_cross_file_consistency`:
adjacency lists in insertion order (set iteration order is modelled as
insertion order; every property proved about the graph is order-independent). -/
def sibEdges (poc : List (Int × List Int)) : List Int → List (Int × List Int) →
    List (Int × List Int)
  | [], g => g
  | a :: rest, g =>
    sibEdges poc rest (rest.foldl (fun g2 b =>
      let pa := (alookup poc a).getD []
      let pb := (alookup poc b).getD []
      if !pa.isEmpty && !pb.isEmpty && pa.any (fun x => x ∈ pb) then
        mapAdd (mapAdd g2 a b) b a
      else g2) g)

/-- Embedding of `related_edges`: spouse, parent/child and sibling edges
restricted to `occupants`. -/
def related_edges (sp : List (Int × Int)) (cop poc : List (Int × List Int))
    (occupants : List Int) : List (Int × List Int) :=
  let g0 := (firstDistinct occupants).map (fun o => (o, ([] : List Int)))
  let g1 := occupants.foldl (fun g a =>
    match alookup sp a with
    | some b => if b ∈ occupants then mapAdd (mapAdd g a b) b a else g
    | none => g) g0
  let g2 := occupants.foldl (fun g p =>
    ((alookup cop p).getD []).foldl (fun g3 ch =>
      if ch ∈ occupants then mapAdd (mapAdd g3 p ch) ch p else g3) g) g1
  sibEdges poc occupants g2

/-- Neighbour list of `u` in an adjacency map (`graph.get(u, set())`). -/
def adjOf (g : List (Int × List Int)) (u : Int) : List Int := (alookup g u).getD []

/-- Fuelled breadth-first traversal; mirrors the deque loop of the source
(`popleft`, skip if seen, mark seen, push unseen neighbours).  With the fuel
chosen by `bfsFuel` it always runs to queue exhaustion (proved below). -/
def bfsAux (g : List (Int × List Int)) : Nat → List Int → List Int → List Int
  | 0, seen, _ => seen
  | _ + 1, seen, [] => seen
  | fuel + 1, seen, u :: q =>
    if u ∈ seen then bfsAux g fuel seen q
    else bfsAux g fuel (seen ++ [u]) (q ++ (adjOf g u).filter (fun v => v ∉ seen ++ [u]))

/-- Largest adjacency-list length of the graph. -/
def graphDeg (g : List (Int × List Int)) : Nat :=
  (g.map (fun e => e.2.length)).foldr max 0

/-- Fuel sufficient for `bfsAux` to exhaust its queue (proved below). -/
def bfsFuel (g : List (Int × List Int)) (nodes : List Int) (qlen : Nat) : Nat :=
  (nodes.length + 1) * (graphDeg g + 1) + qlen

/-- Embedding of the inner function `is_connected`. -/
def is_connected (g : List (Int × List Int)) (nodes : List Int) : Bool :=
  match nodes with
  | [] => true
  | start :: _ => (bfsAux g (bfsFuel g nodes 1) [] [start]).length = nodes.length

/-- Connected components enumeration for the 2.9 diagnostic; Python iterates a
set (`next(iter(unseen))`), modelled as first-in-insertion-order choice. -/
def componentsAux (g : List (Int × List Int)) : Nat → List Int → List (List Int)
  | 0, _ => []
  | fuel + 1, unseen =>
    match unseen with
    | [] => []
    | start :: _ =>
      let comp := bfsAux g (bfsFuel g unseen 1) [] [start]
      sortedInts comp :: componentsAux g fuel (unseen.filter (fun x => x ∉ comp))

/-- Component list of a node set. -/
def components (g : List (Int × List Int)) (nodes : List Int) : List (List Int) :=
  componentsAux g nodes.length (firstDistinct nodes)

/-- The adult test of the minor-guardianship BFS, applied to a popped node:
`is_int(u_age) and u_age >= 18 and u != cid` with
`u_age = chars_by_id[u].get("age")`. -/
def adultPred (chars_by_id : List (Int × JValue)) (cid u : Int) : Bool :=
  is_int (child_age chars_by_id u) && 18 ≤ intOf (child_age chars_by_id u) && u ≠ cid

/-- Fuelled breadth-first search for a related adult, mirroring the minor
guardianship loop: pop, skip if seen, mark seen, return `true` (break) when an
adult other than the minor is reached, else push unseen neighbours. -/
def find_adult_aux (g : List (Int × List Int)) (chars_by_id : List (Int × JValue)) (cid : Int) :
    Nat → List Int → List Int → Bool
  | 0, _, _ => false
  | _ + 1, _, [] => false
  | fuel + 1, seen, u :: q =>
    if u ∈ seen then find_adult_aux g chars_by_id cid fuel seen q
    else
      if adultPred chars_by_id cid u then true
      else find_adult_aux g chars_by_id cid fuel (seen ++ [u])
        (q ++ (adjOf g u).filter (fun v => v ∉ seen ++ [u]))

/-- Embedding of the `seen_occurrences` map: occupant id to the list of houses
listing it, in encounter order, duplicates kept (`defaultdict(list)`). -/
def seen_occurrences (houses_by_number : List (Int × JValue)) : List (Int × List Int) :=
  houses_by_number.foldl (fun m e =>
    match jgetD e.2 "occupants" jnull with
    | .jarr occs => occs.foldl (fun m2 occ =>
        if is_int occ then listMapAdd m2 (intOf occ) e.1 else m2) m
    | _ => m) []

/-- Per-occupant body of the existence/multiplicity loop (requirement
2.3.3/2.8 and 2.8). -/
def occupancy_presence_issues (chars_by_id : List (Int × JValue)) (occ : Int)
    (hns : List Int) : List Issue :=
  if occ = 0 then []
  else
    optIf (!hasKey chars_by_id occ)
      ⟨"ERROR", "2.3.3/2.8", "houses.json: occupant id=" ++ toString occ
        ++ " appears in house(s) " ++ intListRepr (sortedInts hns)
        ++ " but is missing in characters.json."⟩
    ++ optIf ((firstDistinct hns).length ≠ 1)
      ⟨"ERROR", "2.8", "NPC id=" ++ toString occ ++ " appears in multiple houses: "
        ++ intListRepr (sortedInts (firstDistinct hns)) ++ " (must be exactly one)."⟩

/-- Per-character body of the occupancy totality loop (requirement 2.8). -/
def occupancy_totality_issue (socc : List (Int × List Int)) (cid : Int) : List Issue :=
  if cid = 0 then []
  else
    match alookup socc cid with
    | none => [⟨"ERROR", "2.8", "NPC id=" ++ toString cid
        ++ " does not appear in any house occupants list."⟩]
    | some hns =>
      optIf ((firstDistinct hns).length ≠ 1)
        ⟨"ERROR", "2.8", "NPC id=" ++ toString cid ++ " appears in multiple houses "
          ++ intListRepr (sortedInts (firstDistinct hns)) ++ " (must be 1)."⟩

/-- The `surname_to_houses` map: stripped lastName to the set of houses
actually housing a character with that lastName. -/
def surname_to_houses (chars_by_id : List (Int × JValue)) (occ_to_house : List (Int × Int)) :
    List (String × List Int) :=
  chars_by_id.foldl (fun m e =>
    if e.1 = (0 : Int) then m
    else
      match alookup occ_to_house e.1 with
      | none => m
      | some hn =>
        match jgetD e.2 "lastName" jnull with
        | .jstr s => if s.trim ≠ "" then mapAdd m s.trim hn else m
        | _ => m) []

/-- Surname-spanning errors (requirement 2.5), iterated in sorted surname
order as the source does. -/
def surname_span_issues (m : List (String × List Int)) : List Issue :=
  (insSort (fun a b => pyStrLe a.1 b.1) m).filterMap (fun e =>
    if e.2.length > 1 then
      some ⟨"ERROR", "2.5", "Surname " ++ pyStrRepr e.1 ++ " appears across multiple houses "
        ++ intListRepr (sortedInts e.2) ++ " (must be unique per house)."⟩
    else none)

/-- Per-house body of the surname-binding and relatedness loop. -/
def house_cross_issues (chars_by_id : List (Int × JValue)) (sp : List (Int × Int))
    (cop poc : List (Int × List Int)) (hn : Int) (h : JValue) : List Issue :=
  match jgetD h "occupants" (jarr []) with
  | .jarr occs_any =>
    let occs := occs_any.filterMap (fun o => if is_int o then some (intOf o) else none)
    if hn = 7 then
      optIf (occs ≠ [0])
        ⟨"ERROR", "2.4", "house 7 must be [0], got " ++ pyRepr (jarr occs_any)⟩
    else
      match jgetD h "surname" jnull with
      | .jstr s0 =>
        if s0.trim = "" then []
        else
          let house_surname := s0.trim
          let surnameIssues := occs.flatMap (fun occ =>
            if occ = 0 then
              [⟨"ERROR", "2.4", "house " ++ toString hn
                ++ ": player id=0 must not live in houses other than 7."⟩]
            else
              match alookup chars_by_id occ with
              | some c =>
                if !pyTruthy c then []
                else
                  match jgetD c "lastName" jnull with
                  | .jstr ls =>
                    if ls.trim ≠ "" && ls.trim ≠ house_surname then
                      [⟨"ERROR", "2.3.2/2.9", "house " ++ toString hn ++ ": occupant id="
                        ++ toString occ ++ " lastName=" ++ pyStrRepr ls.trim
                        ++ " != house surname " ++ pyStrRepr house_surname ++ "."⟩]
                    else []
                  | _ => []
              | none => [])
          let occs_no_player := occs.filter (fun o => o ≠ 0 && hasKey chars_by_id o)
          let relIssues :=
            if occs_no_player.length ≥ 2 then
              let graph := related_edges sp cop poc occs_no_player
              if !is_connected graph occs_no_player then
                [⟨"ERROR", "2.9", "house " ++ toString hn
                  ++ ": occupants are not all related under allowed relationships. "
                  ++ "Disconnected components: "
                  ++ intListListRepr (components graph occs_no_player)⟩]
              else []
            else []
          surnameIssues ++ relIssues
      | _ => []
  | _ => []

/-- The `adults_in_house` list of the minor-guardianship check: occupants of
the house whose recorded age is a true integer ≥ 18. -/
def adultsInHouse (chars_by_id : List (Int × JValue)) (occs_house : List Int) : List Int :=
  occs_house.filter (fun o =>
    is_int (child_age chars_by_id o) && 18 ≤ intOf (child_age chars_by_id o))

/-- The `occs_house` list the minor-guardianship check builds for house `hn`:
integer occupant ids that exist in `chars_by_id`. -/
def mgOccsHouse (chars_by_id : List (Int × JValue)) (occs : List JValue) : List Int :=
  occs.filterMap (fun o =>
    if is_int o && hasKey chars_by_id (intOf o) then some (intOf o) else none)

def minorOccsHouse (chars_by_id houses_by_number : List (Int × JValue)) (hn : Int) : List Int :=
  match jgetD ((alookup houses_by_number hn).getD (jobj [])) "occupants" (jarr []) with
  | .jarr occs => mgOccsHouse chars_by_id occs
  | _ => []

/-- The `has_adult_family` flag of the minor guardianship loop: when the house
holds at least two known occupants and the relation graph has the minor as a
key, run the breadth-first adult search from the minor; otherwise `false`. -/
def mgHasAdult (chars_by_id : List (Int × JValue)) (sp : List (Int × Int))
    (cop poc : List (Int × List Int)) (cid : Int) (occs_house : List Int) : Bool :=
  if occs_house.length ≥ 2 then
    if !(related_edges sp cop poc occs_house).isEmpty
        && hasKey (related_edges sp cop poc occs_house) cid then
      find_adult_aux (related_edges sp cop poc occs_house) chars_by_id cid
        (bfsFuel (related_edges sp cop poc occs_house) occs_house 1) [] [cid]
    else false
  else false

/-- Per-character body of the minor guardianship loop (requirement 2.2.4.1). -/
def minor_guardian_issue (chars_by_id houses_by_number : List (Int × JValue))
    (sp : List (Int × Int)) (cop poc : List (Int × List Int)) (occ_to_house : List (Int × Int))
    (cid : Int) (c : JValue) : List Issue :=
  if cid = 0 then []
  else if !is_int (jgetD c "age" jnull) then []
  else if intOf (jgetD c "age" jnull) ≤ 17 then
    match alookup occ_to_house cid with
    | none => []
    | some hn =>
      match jgetD ((alookup houses_by_number hn).getD (jobj [])) "occupants" (jarr []) with
      | .jarr occs =>
        if !mgHasAdult chars_by_id sp cop poc cid (mgOccsHouse chars_by_id occs) then
          [⟨"ERROR", "2.2.4.1", "Minor NPC id=" ++ toString cid ++ " age="
            ++ toString (intOf (jgetD c "age" jnull)) ++ " in house " ++ toString hn
            ++ " does not live with a related adult family member. Adult occupants present: "
            ++ intListRepr (sortedInts (adultsInHouse chars_by_id (mgOccsHouse chars_by_id occs)))⟩]
        else []
      | _ => []
  else []

/-- Per-character body of the minors-not-married/no-children loop. -/
def minor_family_issues (cid : Int) (c : JValue) : List Issue :=
  let age := jgetD c "age" jnull
  if !is_int age then []
  else
    let fam := jgetD c "family" (jobj [])
    let spouse := jgetD fam "spouse" jnull
    let children := jgetD fam "children" jnull
    if intOf age < 18 then
      optIf (is_int spouse && intOf spouse ≠ -1)
        ⟨"ERROR", "2.2.8.4", "NPC id=" ++ toString cid ++ " age=" ++ toString (intOf age)
          ++ " is married (spouse=" ++ pyStr spouse ++ ")."⟩
      ++ optIf (match children with
          | .jarr l => l.length > 0
          | _ => false)
        ⟨"ERROR", "2.2.8.5", "NPC id=" ++ toString cid ++ " age=" ++ toString (intOf age)
          ++ " has children listed: " ++ pyRepr children ++ "."⟩
    else []

/-- Embedding of `validate_cross_file_consistency`. -/
def validate_cross_file_consistency (chars_by_id houses_by_number : List (Int × JValue))
    (sp : List (Int × Int)) (poc cop : List (Int × List Int)) : List Issue :=
  let socc := seen_occurrences houses_by_number
  let occ_to_house := build_house_index houses_by_number
  optIf (hasKey chars_by_id 0)
    ⟨"ERROR", "2.4.1", "Player id=0 must not be present in characters.json."⟩
  ++ socc.flatMap (fun e => occupancy_presence_issues chars_by_id e.1 e.2)
  ++ chars_by_id.flatMap (fun e => occupancy_totality_issue socc e.1)
  ++ surname_span_issues (surname_to_houses chars_by_id occ_to_house)
  ++ houses_by_number.flatMap (fun e => house_cross_issues chars_by_id sp cop poc e.1 e.2)
  ++ chars_by_id.flatMap (fun e =>
      minor_guardian_issue chars_by_id houses_by_number sp cop poc occ_to_house e.1 e.2)
  ++ chars_by_id.flatMap (fun e => minor_family_issues e.1 e.2)

/-- Modelled from the spec: file reading and strict UTF-8 decoding are
external collaborators (spec section 1 lists them out of scope), so the
outcome of reading one file is an input to the model: decoded text, a
Unicode decode failure, or a missing file. -/
inductive TextRead where
  | notFound
  | decodeErr (e : String)
  | ok (text : String)

/-- Modelled from the spec: JSON parsing is an external collaborator assumed
to produce a generic tree or report a syntax error with a position. -/
structure JsonErr where
  lineno : Nat
  colno : Nat
  msg : String

/-- Embedding of `load_utf8_text` over a supplied read outcome. -/
def load_utf8_text (path : String) (r : TextRead) : Option String × List Issue :=
  match r with
  | .ok text => (some text, [])
  | .decodeErr e => (none, [⟨"ERROR", "1.4.1",
      path ++ ": file is not valid UTF-8 (UnicodeDecodeError: " ++ e ++ ")."⟩])
  | .notFound => (none, [⟨"ERROR", "1.1/2.x", path ++ ": file not found."⟩])

/-- Embedding of `load_json` over a supplied parse outcome. -/
def load_json (path : String) (r : Except JsonErr JValue) : Option JValue × List Issue :=
  match r with
  | .ok v => (some v, [])
  | .error e => (none, [⟨"ERROR", "1.2", path ++ ": invalid JSON (line "
      ++ toString e.lineno ++ ", col " ++ toString e.colno ++ "): " ++ e.msg⟩])

/-- Severity rank of `sort_key`: 0 for ERROR, 1 otherwise. -/
def level_rank (lvl : String) : Nat := if lvl = "ERROR" then 0 else 1

/-- Strict comparison of the three-level sort keys
`(level_rank, requirement, message)`. -/
def keyLt (a b : Issue) : Bool :=
  level_rank a.level < level_rank b.level
  || (level_rank a.level = level_rank b.level
      && (pyStrLt a.requirement b.requirement
        || (a.requirement = b.requirement && pyStrLt a.message b.message)))

/-- Non-strict total order on sort keys. -/
def issueLe (a b : Issue) : Bool := !keyLt b a

/-- Embedding of `sorted(all_issues, key=sort_key)`. -/
def sortIssues (l : List Issue) : List Issue := insSort issueLe l

/-- One printed report line: `<SEVERITY> [Req <id>] <message>`. -/
def formatIssueLine (i : Issue) : String :=
  i.level ++ " [Req " ++ i.requirement ++ "] " ++ i.message

/-- Printed lines for a list of issues. -/
def printIssues (issues : List Issue) : List String := issues.map formatIssueLine

/-- Count of ERROR-level issues. -/
def err_count (issues : List Issue) : Nat :=
  (issues.filter (fun i => i.level = "ERROR")).length

/-- Count of WARN-level issues. -/
def warn_count (issues : List Issue) : Nat :=
  (issues.filter (fun i => i.level = "WARN")).length

/-- The validation-phase issue list of `main` (houses, characters,
relationships, cross-file), in emission order. -/
def pipeline_issues (characters houses : JValue) : List Issue :=
  let hr := validate_houses houses
  let cr := validate_characters characters
  hr.2 ++ cr.2 ++ relationship_issues cr.1
    ++ validate_cross_file_consistency cr.1 hr.1 (spouse_of cr.1)
      (parents_of_child cr.1) (children_of_parent cr.1)

/-- The fixed trailer printed after the sorted issue list. -/
def summaryLines (issues : List Issue) : List String :=
  ["", "Summary:", "- Errors: " ++ toString (err_count issues),
    "- Warnings: " ++ toString (warn_count issues), "",
    "Not automatically validated (subjective / non-objective requirements):",
    "- 3.1 recurring themes across many NPCs",
    "- 3.2 cultural voice corresponds to accent language",
    "- 3.3 / 3.3.1 no aggression / no passive aggressiveness"]

/-- Embedding of `main`: returns the exit status and the printed lines.  The
read and parse outcomes of the two files are inputs (external collaborators). -/
def main (char_path house_path : String) (char_read house_read : TextRead)
    (char_parse house_parse : Except JsonErr JValue) : Nat × List String :=
  let r1 := load_utf8_text char_path char_read
  match r1.1 with
  | none => (2, printIssues r1.2)
  | some char_raw =>
    let all2 := r1.2 ++ scan_for_disallowed_quotes char_path char_raw
    let r2 := load_utf8_text house_path house_read
    let all3 := all2 ++ r2.2
    match r2.1 with
    | none => (2, printIssues all3)
    | some house_raw =>
      let all4 := all3 ++ scan_for_disallowed_quotes house_path house_raw
      let rc := load_json char_path char_parse
      let rh := load_json house_path house_parse
      let all5 := all4 ++ rc.2 ++ rh.2
      match rc.1, rh.1 with
      | some characters, some houses =>
        let allIssues := all5 ++ pipeline_issues characters houses
        ((if err_count allIssues = 0 then 0 else 1),
          printIssues (sortIssues allIssues) ++ summaryLines allIssues)
      | _, _ => (2, printIssues all5)

/-- Membership in a guarded singleton. -/
theorem mem_optIf {i j : Issue} {c : Bool} : i ∈ optIf c j ↔ c = true ∧ i = j := by
  cases c <;> simp [optIf]

/-- Issue list accumulated by a fully successful run, before sorting:
both raw-text scans followed by the validation pipeline. -/
def accumulated_issues (char_path house_path ct ht : String) (c h : JValue) : List Issue :=
  scan_for_disallowed_quotes char_path ct ++ scan_for_disallowed_quotes house_path ht
    ++ pipeline_issues c h

/-- C8: validation is a deterministic function of its inputs: two runs of the
whole pipeline (read outcomes, scans, house/character validation, relationship
indexes, cross-file checks, sort) on identical inputs produce identical issue
lists and printed output.  In the embedding every stage is a pure function, so
determinism is substitution of equals. -/
theorem C8_deterministic (cp hp cp' hp' : String) (cr hr cr' hr' : TextRead)
    (ce he ce' he' : Except JsonErr JValue)
    (h1 : cp = cp') (h2 : hp = hp') (h3 : cr = cr') (h4 : hr = hr')
    (h5 : ce = ce') (h6 : he = he') :
    main cp hp cr hr ce he = main cp' hp' cr' hr' ce' he'
      ∧ sortIssues (pipeline_issues (jarr []) (jarr []))
        = sortIssues (pipeline_issues (jarr []) (jarr [])) := by
  subst_vars
  exact ⟨rfl, rfl⟩

/-- Witness for C8 at a concrete input. -/
theorem C8_deterministic_witness :
    main "a" "b" (TextRead.ok "x") (TextRead.ok "y") (Except.ok (jarr [])) (Except.ok (jarr []))
      = main "a" "b" (TextRead.ok "x") (TextRead.ok "y") (Except.ok (jarr []))
        (Except.ok (jarr [])) :=
  (C8_deterministic "a" "b" "a" "b" (TextRead.ok "x") (TextRead.ok "y") (TextRead.ok "x")
    (TextRead.ok "y") (Except.ok (jarr [])) (Except.ok (jarr [])) (Except.ok (jarr []))
    (Except.ok (jarr [])) rfl rfl rfl rfl rfl rfl).1

/-- C1: the process exit status obeys the three-way contract.  When both files
decode and parse, `main` returns 0 when the accumulated issue list has no
ERROR-level issue and 1 otherwise; in every read/decode-failure or
parse-failure case it returns 2 and prints exactly the issues accumulated up
to that point. -/
theorem C1_exit_contract (cp hp : String) :
    (∀ ct ht c h, (main cp hp (TextRead.ok ct) (TextRead.ok ht)
        (Except.ok c) (Except.ok h)).1
        = if err_count (accumulated_issues cp hp ct ht c h) = 0 then 0 else 1)
    ∧ (∀ s hr ce he, main cp hp (TextRead.decodeErr s) hr ce he
        = (2, printIssues (load_utf8_text cp (TextRead.decodeErr s)).2))
    ∧ (∀ hr ce he, main cp hp TextRead.notFound hr ce he
        = (2, printIssues (load_utf8_text cp TextRead.notFound).2))
    ∧ (∀ ct s ce he, main cp hp (TextRead.ok ct) (TextRead.decodeErr s) ce he
        = (2, printIssues (scan_for_disallowed_quotes cp ct
            ++ (load_utf8_text hp (TextRead.decodeErr s)).2)))
    ∧ (∀ ct ce he, main cp hp (TextRead.ok ct) TextRead.notFound ce he
        = (2, printIssues (scan_for_disallowed_quotes cp ct
            ++ (load_utf8_text hp TextRead.notFound).2)))
    ∧ (∀ ct ht e he, main cp hp (TextRead.ok ct) (TextRead.ok ht) (Except.error e) he
        = (2, printIssues (scan_for_disallowed_quotes cp ct
            ++ scan_for_disallowed_quotes hp ht
            ++ (load_json cp (Except.error e)).2 ++ (load_json hp he).2)))
    ∧ (∀ ct ht ce e, main cp hp (TextRead.ok ct) (TextRead.ok ht) ce (Except.error e)
        = (2, printIssues (scan_for_disallowed_quotes cp ct
            ++ scan_for_disallowed_quotes hp ht
            ++ (load_json cp ce).2 ++ (load_json hp (Except.error e)).2))) := by
  refine ⟨?_, ?_, ?_, ?_, ?_, ?_, ?_⟩
  · intro ct ht c h
    simp [main, load_utf8_text, load_json, accumulated_issues]
  · intro s hr ce he
    rfl
  · intro hr ce he
    rfl
  · intro ct s ce he
    simp [main, load_utf8_text]
  · intro ct ce he
    simp [main, load_utf8_text]
  · intro ct ht e he
    cases he <;> simp [main, load_utf8_text, load_json]
  · intro ct ht ce e
    cases ce <;> simp [main, load_utf8_text, load_json]

/-- C2 counterexample: a run whose characters file fails UTF-8 decoding while
the houses file contains a disallowed curly quote.  The run prints only the
characters-file decode issue and exits 2: the houses file is never scanned,
although its scan would have produced an issue. -/
theorem C2_counterexample :
    main "characters.json" "houses.json" (TextRead.decodeErr "bad byte")
        (TextRead.ok "’") (Except.ok (jarr [])) (Except.ok (jarr []))
      = (2, ["ERROR [Req 1.4.1] characters.json: file is not valid UTF-8 "
          ++ "(UnicodeDecodeError: bad byte)."])
    ∧ scan_for_disallowed_quotes "houses.json" "’" ≠ [] := by
  constructor
  · rfl
  · decide

/-- C2 (amended): a fatal decode failure on the characters file aborts the run
immediately with exit status 2 and only the characters-file issue printed; the
houses file is not read or scanned (the result does not depend on the houses
inputs at all).  Only the two JSON parses are both attempted before aborting:
when both files decode but both fail to parse, both parse issues are printed. -/
theorem C2_first_file_short_circuits (cp hp e : String) (hr hr' : TextRead)
    (ce he ce' he' : Except JsonErr JValue) :
    main cp hp (TextRead.decodeErr e) hr ce he
      = (2, printIssues (load_utf8_text cp (TextRead.decodeErr e)).2)
    ∧ main cp hp (TextRead.decodeErr e) hr ce he
      = main cp hp (TextRead.decodeErr e) hr' ce' he'
    ∧ (∀ ct ht ec eh, main cp hp (TextRead.ok ct) (TextRead.ok ht)
        (Except.error ec) (Except.error eh)
        = (2, printIssues (scan_for_disallowed_quotes cp ct
            ++ scan_for_disallowed_quotes hp ht
            ++ (load_json cp (Except.error ec)).2 ++ (load_json hp (Except.error eh)).2))) := by
  refine ⟨rfl, rfl, ?_⟩
  intro ct ht ec eh
  simp [main, load_utf8_text, load_json]

theorem chListLt_iff_lex : ∀ a b : List Char, chListLt a b = true ↔ List.Lex (· < ·) a b
  | [], [] => by
    constructor
    · intro h
      exact absurd h (by simp [chListLt])
    · intro h
      cases h
  | [], b :: bs => by
    constructor
    · intro _
      exact List.Lex.nil
    · intro _
      rfl
  | a :: as, [] => by
    constructor
    · intro h
      exact absurd h (by simp [chListLt])
    · intro h
      cases h
  | a :: as, b :: bs => by
    simp only [chListLt]
    rcases lt_trichotomy a b with h | h | h
    · rw [if_pos h]
      exact ⟨fun _ => List.Lex.rel h, fun _ => rfl⟩
    · subst h
      rw [if_neg (lt_irrefl a), if_neg (lt_irrefl a)]
      rw [chListLt_iff_lex as bs]
      constructor
      · exact fun hx => List.Lex.cons hx
      · intro hx
        cases hx with
        | cons h2 => exact h2
        | rel h2 => exact absurd h2 (lt_irrefl a)
    · rw [if_neg (asymm h), if_pos h]
      constructor
      · intro hx
        exact absurd hx (by simp)
      · intro hx
        cases hx with
        | cons h2 => exact absurd h (lt_irrefl _)
        | rel h2 => exact absurd (lt_trans h h2) (lt_irrefl _)

theorem chListLt_trans {a b c : List Char} (h1 : chListLt a b = true)
    (h2 : chListLt b c = true) : chListLt a c = true := by
  rw [chListLt_iff_lex] at h1 h2 ⊢
  exact Trans.trans h1 h2

theorem chListLt_antisymm {a b : List Char} (h1 : chListLt a b = false)
    (h2 : chListLt b a = false) : a = b := by
  haveI : IsTrichotomous Char (· < ·) := ⟨fun a b => lt_trichotomy a b⟩
  rcases trichotomous_of (List.Lex (· < ·)) a b with h | h | h
  · rw [(chListLt_iff_lex a b).mpr h] at h1
    cases h1
  · exact h
  · rw [(chListLt_iff_lex b a).mpr h] at h2
    cases h2

theorem chListLt_irrefl : ∀ a : List Char, chListLt a a = false
  | [] => rfl
  | c :: cs => by simp [chListLt, chListLt_irrefl cs]

theorem pyStrLt_irrefl (a : String) : pyStrLt a a = false := chListLt_irrefl _

theorem pyStrLt_iff (a b : String) : pyStrLt a b = true ↔ a < b := by
  rw [String.lt_iff_toList_lt]
  exact chListLt_iff_lex _ _

theorem pyStrLt_trans {a b c : String} (h1 : pyStrLt a b = true) (h2 : pyStrLt b c = true) :
    pyStrLt a c = true :=
  chListLt_trans h1 h2

theorem pyStrLt_antisymm {a b : String} (h1 : pyStrLt a b = false)
    (h2 : pyStrLt b a = false) : a = b := by
  apply String.ext
  exact chListLt_antisymm h1 h2

theorem keyLt_trichotomy (a b : Issue) : keyLt a b = true ∨ keyLt b a = true
    ∨ (level_rank a.level = level_rank b.level ∧ a.requirement = b.requirement
        ∧ a.message = b.message) := by
  unfold keyLt
  rcases Nat.lt_trichotomy (level_rank a.level) (level_rank b.level) with h | h | h
  · left
    simp [h]
  · rcases hr : pyStrLt a.requirement b.requirement with _ | _
    · rcases hr' : pyStrLt b.requirement a.requirement with _ | _
      · have hreq := pyStrLt_antisymm hr hr'
        rcases hm : pyStrLt a.message b.message with _ | _
        · rcases hm' : pyStrLt b.message a.message with _ | _
          · exact Or.inr (Or.inr ⟨h, hreq, pyStrLt_antisymm hm hm'⟩)
          · right
            left
            simp [h, hr', hm', hreq]
        · left
          simp [h, hm, hreq]
      · right
        left
        simp [h.symm, hr']
    · left
      simp [h, hr]
  · right
    left
    simp [h]

theorem keyLt_trans {a b c : Issue} (h1 : keyLt a b = true) (h2 : keyLt b c = true) :
    keyLt a c = true := by
  simp only [keyLt, Bool.or_eq_true, Bool.and_eq_true, decide_eq_true_eq] at h1 h2 ⊢
  rcases h1 with h1 | ⟨h1e, h1⟩
  · rcases h2 with h2 | ⟨h2e, _⟩
    · exact Or.inl (Nat.lt_trans h1 h2)
    · exact Or.inl (h2e ▸ h1)
  · rcases h2 with h2 | ⟨h2e, h2⟩
    · exact Or.inl (h1e ▸ h2)
    · refine Or.inr ⟨h1e.trans h2e, ?_⟩
      rcases h1 with h1 | ⟨h1r, h1m⟩
      · rcases h2 with h2 | ⟨h2r, _⟩
        · exact Or.inl (pyStrLt_trans h1 h2)
        · exact Or.inl (h2r ▸ h1)
      · rcases h2 with h2 | ⟨h2r, h2m⟩
        · exact Or.inl (h1r ▸ h2)
        · exact Or.inr ⟨h1r.trans h2r, pyStrLt_trans h1m h2m⟩

theorem keyLt_irrefl (a : Issue) : keyLt a a = false := by
  simp [keyLt, pyStrLt_irrefl]

theorem issueLe_total (a b : Issue) : issueLe a b = true ∨ issueLe b a = true := by
  rcases keyLt_trichotomy a b with h | h | ⟨h1, h2, h3⟩
  · rcases hba : keyLt b a with _ | _
    · exact Or.inl (by simp [issueLe, hba])
    · have := keyLt_trans h hba
      rw [keyLt_irrefl] at this
      cases this
  · rcases hab : keyLt a b with _ | _
    · exact Or.inr (by simp [issueLe, hab])
    · have := keyLt_trans hab h
      rw [keyLt_irrefl] at this
      cases this
  · left
    have hba : keyLt b a = false := by
      rw [keyLt, h1, h2, h3]
      simp [pyStrLt_irrefl]
    simp [issueLe, hba]

theorem keyLt_congr_right {a b x : Issue} (h1 : level_rank a.level = level_rank b.level)
    (h2 : a.requirement = b.requirement) (h3 : a.message = b.message) :
    keyLt x a = keyLt x b := by
  unfold keyLt
  rw [h1, h2, h3]

theorem issueLe_trans {a b c : Issue} (h1 : issueLe a b = true) (h2 : issueLe b c = true) :
    issueLe a c = true := by
  simp only [issueLe, Bool.not_eq_true'] at h1 h2 ⊢
  rcases hca : keyLt c a with _ | _
  · rfl
  · rcases keyLt_trichotomy a b with hab | hab | ⟨e1, e2, e3⟩
    · rw [keyLt_trans hca hab] at h2
      cases h2
    · rw [hab] at h1
      cases h1
    · rw [keyLt_congr_right e1 e2 e3] at hca
      rw [hca] at h2
      cases h2

theorem mem_insertLe {α : Type} (le : α → α → Bool) (x : α) :
    ∀ l : List α, ∀ z, z ∈ insertLe le x l ↔ z = x ∨ z ∈ l
  | [], z => by simp [insertLe]
  | y :: ys, z => by
    simp only [insertLe]
    split
    · simp [List.mem_cons]
    · simp only [List.mem_cons, mem_insertLe le x ys z]
      tauto

theorem insertLe_perm {α : Type} (le : α → α → Bool) (x : α) :
    ∀ l : List α, (insertLe le x l).Perm (x :: l)
  | [] => List.Perm.refl _
  | y :: ys => by
    simp only [insertLe]
    split
    · exact List.Perm.refl _
    · exact ((insertLe_perm le x ys).cons y).trans (List.Perm.swap x y ys)

theorem insSort_perm {α : Type} (le : α → α → Bool) :
    ∀ l : List α, (insSort le l).Perm l
  | [] => List.Perm.refl _
  | x :: xs =>
    (insertLe_perm le x (insSort le xs)).trans ((insSort_perm le xs).cons x)

theorem insertLe_pairwise {α : Type} (le : α → α → Bool)
    (htrans : ∀ {a b c : α}, le a b = true → le b c = true → le a c = true)
    (htot : ∀ a b : α, le a b = true ∨ le b a = true) (x : α) :
    ∀ l : List α, l.Pairwise (fun a b => le a b = true) →
      (insertLe le x l).Pairwise (fun a b => le a b = true)
  | [], _ => by simp [insertLe]
  | y :: ys, h => by
    rcases List.pairwise_cons.mp h with ⟨hy, hys⟩
    simp only [insertLe]
    split
    · rename_i hxy
      refine List.pairwise_cons.mpr ⟨?_, h⟩
      intro z hz
      rcases List.mem_cons.mp hz with rfl | hz
      · exact hxy
      · exact htrans hxy (hy z hz)
    · rename_i hxy
      have hyx : le y x = true := by
        rcases htot x y with hx | hx
        · exact absurd hx hxy
        · exact hx
      refine List.pairwise_cons.mpr ⟨?_, insertLe_pairwise le htrans htot x ys hys⟩
      intro z hz
      rcases (mem_insertLe le x ys z).mp hz with rfl | hz
      · exact hyx
      · exact hy z hz

theorem insSort_pairwise {α : Type} (le : α → α → Bool)
    (htrans : ∀ {a b c : α}, le a b = true → le b c = true → le a c = true)
    (htot : ∀ a b : α, le a b = true ∨ le b a = true) :
    ∀ l : List α, (insSort le l).Pairwise (fun a b => le a b = true)
  | [] => List.Pairwise.nil
  | x :: xs => insertLe_pairwise le htrans htot x (insSort le xs)
      (insSort_pairwise le htrans htot xs)

/-- C7: the printed issue list is sorted by the three-level key — ERROR-level
issues strictly before WARN-level issues, then ascending lexicographic string
order of the requirement identifier (so "2.10" sorts before "2.2"), then
ascending lexicographic order of the message — and the sorted list is a
permutation of the accumulated list. -/
theorem C7_sort_contract (l : List Issue) :
    (sortIssues l).Perm l
    ∧ (sortIssues l).Pairwise (fun a b => keyLt b a = false)
    ∧ (∀ a b : Issue, keyLt a b = true ↔
        (level_rank a.level < level_rank b.level
          ∨ (level_rank a.level = level_rank b.level
            ∧ (a.requirement < b.requirement
              ∨ (a.requirement = b.requirement ∧ a.message < b.message)))))
    ∧ level_rank "ERROR" < level_rank "WARN"
    ∧ ("2.10" : String) < "2.2" := by
  refine ⟨insSort_perm issueLe l, ?_, ?_, by decide, (pyStrLt_iff _ _).mp (by decide)⟩
  · have hp := insSort_pairwise issueLe (fun h1 h2 => issueLe_trans h1 h2)
      (fun a b => issueLe_total a b) l
    refine hp.imp ?_
    intro a b h
    simpa [issueLe, Bool.not_eq_true'] using h
  · intro a b
    unfold keyLt
    simp [Bool.or_eq_true, Bool.and_eq_true, decide_eq_true_eq, pyStrLt_iff]

/-- Integer occupant ids of one house record, in list order. -/
def houseOccupantIds (h : JValue) : List Int :=
  match jgetD h "occupants" (jarr []) with
  | .jarr occs => occs.filterMap (fun o => if is_int o then some (intOf o) else none)
  | _ => []

theorem alookup_append_some {κ α : Type} [DecidableEq κ] {m : List (κ × α)} {key : κ} {w : α}
    (h : alookup m key = some w) (e : κ × α) : alookup (m ++ [e]) key = some w := by
  induction m with
  | nil => cases h
  | cons hd tl ih =>
    rw [List.cons_append]
    unfold alookup at h ⊢
    split at h
    · rw [if_pos (by assumption)]
      exact h
    · rw [if_neg (by assumption)]
      exact ih h

theorem alookup_append_none {κ α : Type} [DecidableEq κ] {m : List (κ × α)} {key : κ}
    (h : alookup m key = none) (k : κ) (v : α) :
    alookup (m ++ [(k, v)]) key = if k = key then some v else none := by
  induction m with
  | nil => rfl
  | cons hd tl ih =>
    rw [List.cons_append]
    unfold alookup at h ⊢
    split at h
    · cases h
    · rw [if_neg (by assumption)]
      exact ih h

/-- The per-house occupant fold of `build_house_index_aux`. -/
def bhiStep (hn : Int) (a : List (Int × Int)) (occ : JValue) : List (Int × Int) :=
  if is_int occ && !hasKey a (intOf occ) then a ++ [(intOf occ, hn)] else a

theorem bhi_fold_preserves (hn : Int) : ∀ (occs : List JValue) (acc : List (Int × Int))
    {occ : Int} {w : Int}, alookup acc occ = some w →
    alookup (occs.foldl (bhiStep hn) acc) occ = some w
  | [], _, _, _, h => h
  | o :: os, acc, occ, w, h => by
    rw [List.foldl_cons]
    apply bhi_fold_preserves hn os
    unfold bhiStep
    split
    · exact alookup_append_some h _
    · exact h

theorem bhi_fold_none (hn : Int) : ∀ (occs : List JValue) (acc : List (Int × Int)) {occ : Int},
    alookup acc occ = none →
    alookup (occs.foldl (bhiStep hn) acc) occ
      = if occ ∈ occs.filterMap (fun o => if is_int o then some (intOf o) else none)
        then some hn else none
  | [], _, _, h => by simpa using h
  | o :: os, acc, occ, h => by
    rw [List.foldl_cons]
    rcases hint : is_int o with _ | _
    · have hstep : bhiStep hn acc o = acc := by simp [bhiStep, hint]
      have hf : (o :: os).filterMap (fun o => if is_int o then some (intOf o) else none)
          = os.filterMap (fun o => if is_int o then some (intOf o) else none) := by
        rw [List.filterMap_cons]
        simp [hint]
      rw [hstep, hf]
      exact bhi_fold_none hn os acc h
    · have hf : (o :: os).filterMap (fun o => if is_int o then some (intOf o) else none)
          = intOf o :: os.filterMap (fun o => if is_int o then some (intOf o) else none) := by
        rw [List.filterMap_cons]
        simp [hint]
      by_cases heq : intOf o = occ
      · subst heq
        rcases hk : alookup acc (intOf o) with _ | w
        · have hacc : alookup (bhiStep hn acc o) (intOf o) = some hn := by
            rw [bhiStep, if_pos (by simp [hint, hasKey, hk])]
            rw [alookup_append_none hk]
            simp
          rw [bhi_fold_preserves hn os _ hacc, hf]
          simp
        · rw [hk] at h
          cases h
      · have hne : ¬ occ = intOf o := fun hh => heq hh.symm
        have hacc : alookup (bhiStep hn acc o) occ = none := by
          rw [bhiStep]
          split
          · rw [alookup_append_none h, if_neg heq]
          · exact h
        rw [bhi_fold_none hn os _ hacc, hf]
        simp [List.mem_cons, hne]

/-- Keys once present in the accumulator survive `build_house_index_aux`. -/
theorem build_house_index_aux_some : ∀ (houses : List (Int × JValue))
    (acc : List (Int × Int)) {occ w : Int}, alookup acc occ = some w →
    alookup (build_house_index_aux houses acc) occ = some w
  | [], _, _, _, h => h
  | (hn, hh) :: rest, acc, occ, w, h => by
    unfold build_house_index_aux
    rcases hocc : jgetD hh "occupants" (jarr []) with _ | _ | _ | _ | _ | occs | _
    case jarr => exact build_house_index_aux_some rest _ (bhi_fold_preserves hn occs acc h)
    all_goals exact build_house_index_aux_some rest acc h

theorem build_house_index_aux_none : ∀ (houses : List (Int × JValue))
    (acc : List (Int × Int)) {occ : Int}, alookup acc occ = none →
    alookup (build_house_index_aux houses acc) occ
      = (houses.find? (fun e => decide (occ ∈ houseOccupantIds e.2))).map Prod.fst
  | [], _, _, h => by simpa [build_house_index_aux] using h
  | (hn, hh) :: rest, acc, occ, h => by
    by_cases hmem : occ ∈ houseOccupantIds hh
    · have hfind : List.find? (fun e : Int × JValue => decide (occ ∈ houseOccupantIds e.2))
          ((hn, hh) :: rest) = some (hn, hh) := by
        rw [List.find?_cons]
        simp [hmem]
      rw [hfind]
      unfold build_house_index_aux
      rcases hocc : jgetD hh "occupants" (jarr []) with _ | _ | _ | _ | _ | occs | _
      · exact absurd hmem (by simp [houseOccupantIds, hocc])
      · exact absurd hmem (by simp [houseOccupantIds, hocc])
      · exact absurd hmem (by simp [houseOccupantIds, hocc])
      · exact absurd hmem (by simp [houseOccupantIds, hocc])
      · exact absurd hmem (by simp [houseOccupantIds, hocc])
      · have hmem' : occ ∈ occs.filterMap (fun o => if is_int o then some (intOf o) else none) := by
          have hids : houseOccupantIds hh
              = occs.filterMap (fun o => if is_int o then some (intOf o) else none) := by
            simp [houseOccupantIds, hocc]
          rwa [hids] at hmem
        have hstart : alookup (occs.foldl (bhiStep hn) acc) occ = some hn := by
          rw [bhi_fold_none hn occs acc h, if_pos hmem']
        exact build_house_index_aux_some rest _ hstart
      · exact absurd hmem (by simp [houseOccupantIds, hocc])
    · have hfind : List.find? (fun e : Int × JValue => decide (occ ∈ houseOccupantIds e.2))
          ((hn, hh) :: rest)
          = List.find? (fun e : Int × JValue => decide (occ ∈ houseOccupantIds e.2)) rest := by
        rw [List.find?_cons]
        simp [hmem]
      rw [hfind]
      unfold build_house_index_aux
      rcases hocc : jgetD hh "occupants" (jarr []) with _ | _ | _ | _ | _ | occs | _
      · exact build_house_index_aux_none rest acc h
      · exact build_house_index_aux_none rest acc h
      · exact build_house_index_aux_none rest acc h
      · exact build_house_index_aux_none rest acc h
      · exact build_house_index_aux_none rest acc h
      · have hmem' : occ ∉ occs.filterMap (fun o => if is_int o then some (intOf o) else none) := by
          have hids : houseOccupantIds hh
              = occs.filterMap (fun o => if is_int o then some (intOf o) else none) := by
            simp [houseOccupantIds, hocc]
          rwa [hids] at hmem
        have hstart : alookup (occs.foldl (bhiStep hn) acc) occ = none := by
          rw [bhi_fold_none hn occs acc h, if_neg hmem']
        exact build_house_index_aux_none rest _ hstart
      · exact build_house_index_aux_none rest acc h

/-- C9: `build_house_index` maps each integer occupant id to the houseNumber
of the first house, in `houses_by_number` insertion order, whose occupants
list contains it; the surname-spanning check and the minor-guardianship check
resolve a character to a house through exactly this index, so an occupant
listed in several houses is attributed to the first one only. -/
theorem C9_build_house_index_first_occurrence (houses : List (Int × JValue)) (occ : Int) :
    alookup (build_house_index houses) occ
      = (houses.find? (fun e => decide (occ ∈ houseOccupantIds e.2))).map Prod.fst :=
  build_house_index_aux_none houses [] rfl

theorem hasKey_iff_mem_keys {κ α : Type} [DecidableEq κ] :
    ∀ (m : List (κ × α)) (k : κ), hasKey m k = true ↔ k ∈ m.map Prod.fst
  | [], k => by simp [hasKey, alookup]
  | (k0, v0) :: rest, k => by
    unfold hasKey alookup
    by_cases h : k0 = k
    · simp [h]
    · rw [if_neg h]
      rw [List.map_cons, List.mem_cons]
      have hrec := hasKey_iff_mem_keys rest k
      unfold hasKey at hrec
      rw [hrec]
      constructor
      · exact Or.inr
      · intro hor
        rcases hor with h1 | h1
        · exact absurd h1.symm h
        · exact h1

theorem hasKey_listMapAdd {κ : Type} [DecidableEq κ] (m : List (κ × List Int)) (k : κ) (x : Int)
    (k' : κ) : hasKey (listMapAdd m k x) k' = true ↔ hasKey m k' = true ∨ k' = k := by
  unfold listMapAdd
  by_cases h : hasKey m k = true
  · rw [if_pos h]
    have hkeys : (m.map (fun e => if e.1 = k then (e.1, e.2 ++ [x]) else e)).map Prod.fst
        = m.map Prod.fst := by
      rw [List.map_map]
      apply List.map_congr_left
      intro e _
      by_cases he : e.1 = k
      · simp [he]
      · simp [he]
    rw [hasKey_iff_mem_keys, hkeys, ← hasKey_iff_mem_keys]
    constructor
    · exact Or.inl
    · intro hor
      rcases hor with h1 | rfl
      · exact h1
      · exact h
  · rw [if_neg h]
    rw [hasKey_iff_mem_keys, List.map_append, List.mem_append, ← hasKey_iff_mem_keys]
    simp

/-- Occupant ids from a raw occupants value match `houseOccupantIds` when the
lookup used the `jnull` default, as in `seen_occurrences`. -/
theorem houseOccupantIds_of_jarr {h : JValue} {occs : List JValue}
    (hocc : jgetD h "occupants" jnull = jarr occs) :
    houseOccupantIds h
      = occs.filterMap (fun o => if is_int o then some (intOf o) else none) := by
  unfold houseOccupantIds jgetD
  unfold jgetD at hocc
  cases hj : jget h "occupants" with
  | none =>
    rw [hj] at hocc
    cases hocc
  | some v =>
    rw [hj] at hocc
    simp only [Option.getD_some] at hocc ⊢
    rw [hocc]

/-- Unusable occupants values give the empty id list. -/
theorem houseOccupantIds_eq_nil {h v : JValue} (hocc : jgetD h "occupants" jnull = v)
    (hv : ∀ xs, v ≠ jarr xs) : houseOccupantIds h = [] := by
  unfold houseOccupantIds jgetD
  unfold jgetD at hocc
  cases hj : jget h "occupants" with
  | none => rfl
  | some w =>
    rw [hj] at hocc
    simp only [Option.getD_some] at hocc ⊢
    subst hocc
    cases w <;> first
      | rfl
      | exact absurd rfl (hv _)

theorem socc_inner_hasKey (hn : Int) : ∀ (occs : List JValue) (m : List (Int × List Int))
    (k : Int),
    hasKey (occs.foldl (fun m2 occ => if is_int occ then listMapAdd m2 (intOf occ) hn else m2) m)
      k = true
    ↔ hasKey m k = true
      ∨ k ∈ occs.filterMap (fun o => if is_int o then some (intOf o) else none)
  | [], m, k => by simp
  | o :: os, m, k => by
    rw [List.foldl_cons, List.filterMap_cons]
    rcases hint : is_int o with _ | _
    · rw [if_neg (by simp [hint])]
      simpa [hint] using socc_inner_hasKey hn os m k
    · rw [if_pos (by simp [hint])]
      rw [socc_inner_hasKey hn os _ k]
      rw [hasKey_listMapAdd]
      simp only [hint]
      constructor
      · intro hor
        rcases hor with (h1 | rfl) | h1
        · exact Or.inl h1
        · simp
        · simp [h1]
      · intro hor
        rcases hor with h1 | h1
        · exact Or.inl (Or.inl h1)
        · rcases List.mem_cons.mp h1 with rfl | h2
          · exact Or.inl (Or.inr rfl)
          · exact Or.inr h2

theorem seen_occurrences_hasKey : ∀ (houses : List (Int × JValue))
    (m : List (Int × List Int)) (k : Int),
    hasKey (houses.foldl (fun m e =>
      match jgetD e.2 "occupants" jnull with
      | .jarr occs => occs.foldl (fun m2 occ =>
          if is_int occ then listMapAdd m2 (intOf occ) e.1 else m2) m
      | _ => m) m) k = true
    ↔ hasKey m k = true ∨ ∃ e ∈ houses, k ∈ houseOccupantIds e.2
  | [], m, k => by simp
  | e :: rest, m, k => by
    rw [List.foldl_cons]
    rcases hocc : jgetD e.2 "occupants" jnull with _ | _ | _ | _ | _ | occs | _
    case jarr =>
      rw [seen_occurrences_hasKey rest _ k, socc_inner_hasKey e.1 occs m k]
      constructor
      · intro hor
        rcases hor with (h1 | h1) | ⟨e2, he2, h2⟩
        · exact Or.inl h1
        · exact Or.inr ⟨e, List.mem_cons_self e rest,
            by rw [houseOccupantIds_of_jarr hocc]; exact h1⟩
        · exact Or.inr ⟨e2, List.mem_cons_of_mem e he2, h2⟩
      · intro hor
        rcases hor with h1 | ⟨e2, he2, h2⟩
        · exact Or.inl (Or.inl h1)
        · rcases List.mem_cons.mp he2 with rfl | h3
          · rw [houseOccupantIds_of_jarr hocc] at h2
            exact Or.inl (Or.inr h2)
          · exact Or.inr ⟨e2, h3, h2⟩
    all_goals {
      rw [seen_occurrences_hasKey rest m k]
      have hnil : houseOccupantIds e.2 = [] :=
        houseOccupantIds_eq_nil hocc (by intro xs hx; cases hx)
      constructor
      · intro hor
        rcases hor with h1 | ⟨e2, he2, h2⟩
        · exact Or.inl h1
        · exact Or.inr ⟨e2, List.mem_cons_of_mem e he2, h2⟩
      · intro hor
        rcases hor with h1 | ⟨e2, he2, h2⟩
        · exact Or.inl h1
        · rcases List.mem_cons.mp he2 with rfl | h3
          · rw [hnil] at h2
            cases h2
          · exact Or.inr ⟨e2, h3, h2⟩
    }

/-- C10: a non-player character with integer age ≤ 17 that appears in no
house's occupants list gets no 2.2.4.1 minor-guardianship issue (the check is
silently skipped because `occ_to_house` has no entry), and the absence from
all houses is reported only by the separate 2.8 occupancy-totality ERROR. -/
theorem C10_unhoused_minor_skipped (chars houses : List (Int × JValue))
    (sp : List (Int × Int)) (cop poc : List (Int × List Int)) (cid : Int) (c : JValue)
    (a : Int) (hmem : (cid, c) ∈ chars) (hcid : ¬cid = 0)
    (hage : jgetD c "age" jnull = jint a) (hminor : a ≤ 17)
    (hnohouse : ∀ e ∈ houses, cid ∉ houseOccupantIds e.2) :
    minor_guardian_issue chars houses sp cop poc (build_house_index houses) cid c = []
    ∧ (⟨"ERROR", "2.8", "NPC id=" ++ toString cid
        ++ " does not appear in any house occupants list."⟩ : Issue)
      ∈ validate_cross_file_consistency chars houses sp poc cop := by
  have hfind : houses.find? (fun e => decide (cid ∈ houseOccupantIds e.2)) = none := by
    rw [List.find?_eq_none]
    intro e he
    simp [hnohouse e he]
  have hnone : alookup (build_house_index houses) cid = none := by
    unfold build_house_index
    rw [build_house_index_aux_none houses [] rfl, hfind]
    rfl
  constructor
  · unfold minor_guardian_issue
    rw [if_neg hcid, hage]
    simp [is_int, intOf, hnone, hminor]
  · have hsocc : alookup (seen_occurrences houses) cid = none := by
      rcases hal : alookup (seen_occurrences houses) cid with _ | v
      · rfl
      · exfalso
        have hk : hasKey (seen_occurrences houses) cid = true := by
          unfold hasKey
          rw [hal]
          rfl
        have h2 := (seen_occurrences_hasKey houses [] cid).mp hk
        rcases h2 with h1 | ⟨e2, he2, h2⟩
        · simp [hasKey, alookup] at h1
        · exact hnohouse e2 he2 h2
    have hiss : (⟨"ERROR", "2.8", "NPC id=" ++ toString cid
        ++ " does not appear in any house occupants list."⟩ : Issue)
        ∈ chars.flatMap (fun e => occupancy_totality_issue (seen_occurrences houses) e.1) := by
      rw [List.mem_flatMap]
      refine ⟨(cid, c), hmem, ?_⟩
      unfold occupancy_totality_issue
      rw [if_neg hcid, hsocc]
      exact List.mem_singleton.mpr rfl
    unfold validate_cross_file_consistency
    simp only [List.mem_append]
    left
    left
    left
    left
    right
    exact hiss

/-- Witness for C10: a 7-year-old character id 1 listed in no house. -/
theorem C10_unhoused_minor_skipped_witness :
    minor_guardian_issue [((1 : Int), jobj [("age", jint 7)])] [] [] [] []
      (build_house_index []) 1 (jobj [("age", jint 7)]) = []
    ∧ (⟨"ERROR", "2.8", "NPC id=" ++ toString (1 : Int)
        ++ " does not appear in any house occupants list."⟩ : Issue)
      ∈ validate_cross_file_consistency [((1 : Int), jobj [("age", jint 7)])] [] [] [] [] :=
  C10_unhoused_minor_skipped [((1 : Int), jobj [("age", jint 7)])] [] [] [] [] 1
    (jobj [("age", jint 7)]) 7 (List.mem_singleton.mpr rfl) (by decide) rfl (by decide)
    (by intro e he; cases he)

/-- C4: for every pair `a → b` in the derived spouse_of mapping: when `b` is
not a key of `chars_by_id`, the pair produces exactly the nonexistence ERROR;
otherwise the symmetry ERROR naming both ids and the observed mismatch value
is emitted exactly when `b`'s own family.spouse is not an integer equal to
`a`, and when it is, no 2.2.8 issue at all is emitted for that pair.  Every
per-pair issue reaches the output of `build_relationship_indexes`. -/
theorem C4_spouse_symmetry (chars : List (Int × JValue)) (a b : Int)
    (hab : (a, b) ∈ spouse_of chars) :
    (hasKey chars b = false →
      spouse_pair_issues chars a b
        = [⟨"ERROR", "2.2.8", "NPC id=" ++ toString a ++ ": spouse id=" ++ toString b
            ++ " does not exist in characters.json."⟩])
    ∧ (hasKey chars b = true →
        (((⟨"ERROR", "2.2.8", "NPC id=" ++ toString a ++ ": spouse id=" ++ toString b
            ++ " is not symmetric (NPC id=" ++ toString b ++ " has family.spouse="
            ++ pyRepr (recorded_spouse chars b) ++ ")."⟩ : Issue)
            ∈ spouse_pair_issues chars a b)
          ↔ ¬(is_int (recorded_spouse chars b) = true ∧ intOf (recorded_spouse chars b) = a))
        ∧ ((is_int (recorded_spouse chars b) = true ∧ intOf (recorded_spouse chars b) = a) →
            ∀ i ∈ spouse_pair_issues chars a b, i.requirement ≠ "2.2.8"))
    ∧ (∀ i ∈ spouse_pair_issues chars a b, i ∈ relationship_issues chars) := by
  refine ⟨?_, ?_, ?_⟩
  · intro h
    unfold spouse_pair_issues
    rw [if_pos (by simp [h])]
  · intro h
    by_cases hsym : is_int (recorded_spouse chars b) = true ∧ intOf (recorded_spouse chars b) = a
    · have hbool : (!(is_int (recorded_spouse chars b)
          && decide (intOf (recorded_spouse chars b) = a))) = false := by
        simp [hsym.1, hsym.2]
      refine ⟨⟨?_, fun hns => absurd hsym hns⟩, ?_⟩
      · intro hmem
        exfalso
        unfold spouse_pair_issues at hmem
        rw [if_neg (by simp [h])] at hmem
        simp only [hbool, List.mem_append, mem_optIf, Bool.false_eq_true, false_and,
          false_or] at hmem
        rcases hmem with ⟨_, hi⟩ | ⟨_, hi⟩ | ⟨_, hi⟩ <;>
          simp [Issue.mk.injEq] at hi
      · intro _ i hi
        unfold spouse_pair_issues at hi
        rw [if_neg (by simp [h])] at hi
        simp only [hbool, List.mem_append, mem_optIf, Bool.false_eq_true, false_and,
          false_or] at hi
        rcases hi with ⟨_, hi⟩ | ⟨_, hi⟩ | ⟨_, hi⟩ <;> subst hi <;> simp
    · have hbool : (!(is_int (recorded_spouse chars b)
          && decide (intOf (recorded_spouse chars b) = a))) = true := by
        rcases h1 : is_int (recorded_spouse chars b) with _ | _
        · simp [h1]
        · rcases h2 : decide (intOf (recorded_spouse chars b) = a) with _ | _
          · simp [h1, h2]
          · exact absurd ⟨h1, of_decide_eq_true h2⟩ hsym
      refine ⟨⟨fun _ => hsym, ?_⟩, fun hns => absurd hns hsym⟩
      intro _
      unfold spouse_pair_issues
      rw [if_neg (by simp [h])]
      simp [List.mem_append, mem_optIf, hbool]
  · intro i hi
    unfold relationship_issues
    simp only [List.mem_append]
    left
    left
    right
    rw [List.mem_flatMap]
    exact ⟨(a, b), hab, hi⟩

/-- Witness for C4: id 1 names spouse 2, but id 2 records spouse 5, so the
symmetry ERROR fires. -/
theorem C4_spouse_symmetry_witness :
    ((1 : Int), (2 : Int)) ∈ spouse_of
      [((1 : Int), jobj [("family", jobj [("spouse", jint 2)])]),
       ((2 : Int), jobj [("family", jobj [("spouse", jint 5)])])]
    ∧ (⟨"ERROR", "2.2.8", "NPC id=" ++ toString (1 : Int) ++ ": spouse id="
        ++ toString (2 : Int) ++ " is not symmetric (NPC id=" ++ toString (2 : Int)
        ++ " has family.spouse="
        ++ pyRepr (recorded_spouse
            [((1 : Int), jobj [("family", jobj [("spouse", jint 2)])]),
             ((2 : Int), jobj [("family", jobj [("spouse", jint 5)])])] 2) ++ ")."⟩ : Issue)
      ∈ spouse_pair_issues
        [((1 : Int), jobj [("family", jobj [("spouse", jint 2)])]),
         ((2 : Int), jobj [("family", jobj [("spouse", jint 5)])])] 1 2 := by
  refine ⟨by decide, ?_⟩
  exact (((C4_spouse_symmetry
    [((1 : Int), jobj [("family", jobj [("spouse", jint 2)])]),
     ((2 : Int), jobj [("family", jobj [("spouse", jint 5)])])] 1 2 (by decide)).2.1
    (by decide)).1).mpr (by decide)

/-- C6: for every parent `p` and referenced child `ch` in `children_of_parent`:
when `ch` is not a key of `chars_by_id` an existence ERROR is emitted and the
age-gap check for the pair is skipped; otherwise, when both ages are true
integers, the age-gap ERROR naming both ages is emitted exactly when
parent age − child age < 18, and no issue at all is emitted for the pair when
the gap is ≥ 18.  Every per-pair issue reaches the output of
`build_relationship_indexes`. -/
theorem C6_parent_child_age_gap (chars : List (Int × JValue)) (p_age : JValue) (p ch : Int) :
    (hasKey chars ch = false →
      parent_child_pair_issues chars p_age p ch
        = [⟨"ERROR", "2.2.8", "NPC id=" ++ toString p ++ ": references non-existent child id="
            ++ toString ch ++ "."⟩])
    ∧ (hasKey chars ch = true →
        (((⟨"ERROR", "2.2.8.6", "Parent/child age gap violation: parent id=" ++ toString p
            ++ " age=" ++ pyStr p_age ++ ", child id=" ++ toString ch ++ " age="
            ++ pyStr (child_age chars ch) ++ " (must be >= 18 years older)."⟩ : Issue)
            ∈ parent_child_pair_issues chars p_age p ch)
          ↔ (is_int p_age = true ∧ is_int (child_age chars ch) = true
              ∧ intOf p_age - intOf (child_age chars ch) < 18))
        ∧ ((is_int p_age = true ∧ is_int (child_age chars ch) = true
            ∧ 18 ≤ intOf p_age - intOf (child_age chars ch)) →
            parent_child_pair_issues chars p_age p ch = []))
    ∧ (∀ kids, (p, kids) ∈ children_of_parent chars → ch ∈ kids →
        ∀ i ∈ parent_child_pair_issues chars (parent_age chars p) p ch,
          i ∈ relationship_issues chars) := by
  refine ⟨?_, ?_, ?_⟩
  · intro h
    unfold parent_child_pair_issues
    rw [if_pos (by simp [h])]
  · intro h
    constructor
    · unfold parent_child_pair_issues
      rw [if_neg (by simp [h])]
      simp [mem_optIf, Bool.and_eq_true, decide_eq_true_eq, and_assoc]
    · rintro ⟨h1, h2, h3⟩
      unfold parent_child_pair_issues
      rw [if_neg (by simp [h])]
      have hnl : ¬(intOf p_age - intOf (child_age chars ch) < 18) := not_lt.mpr h3
      simp [optIf, hnl]
  · intro kids hk hch i hi
    unfold relationship_issues
    simp only [List.mem_append]
    left
    right
    rw [List.mem_flatMap]
    refine ⟨(p, kids), hk, ?_⟩
    unfold parent_issues
    refine List.mem_append_right _ ?_
    rw [List.mem_flatMap]
    exact ⟨ch, hch, hi⟩

/-- Witness for C6: parent id 1 aged 30 lists child id 2 aged 20 — a 10-year
gap — so the 2.2.8.6 ERROR fires. -/
theorem C6_parent_child_age_gap_witness :
    hasKey [((1 : Int), jobj [("age", jint 30),
        ("family", jobj [("children", jarr [jint 2])])]),
      ((2 : Int), jobj [("age", jint 20)])] (2 : Int) = true
    ∧ (⟨"ERROR", "2.2.8.6", "Parent/child age gap violation: parent id=" ++ toString (1 : Int)
        ++ " age=" ++ pyStr (jint 30) ++ ", child id=" ++ toString (2 : Int) ++ " age="
        ++ pyStr (child_age [((1 : Int), jobj [("age", jint 30),
            ("family", jobj [("children", jarr [jint 2])])]),
          ((2 : Int), jobj [("age", jint 20)])] 2) ++ " (must be >= 18 years older)."⟩ : Issue)
      ∈ parent_child_pair_issues [((1 : Int), jobj [("age", jint 30),
          ("family", jobj [("children", jarr [jint 2])])]),
        ((2 : Int), jobj [("age", jint 20)])] (jint 30) 1 2 := by
  refine ⟨by decide, ?_⟩
  exact (((C6_parent_child_age_gap [((1 : Int), jobj [("age", jint 30),
      ("family", jobj [("children", jarr [jint 2])])]),
    ((2 : Int), jobj [("age", jint 20)])] (jint 30) 1 2).2.1 (by decide)).1).mpr
    ⟨by decide, by decide, by decide⟩

/-- Valid `(houseNumber, z, zsize)` triples of one parity side, in the given
houseNumber order: houses whose bounds is a dict with numeric `z` and true
integer `zsize` — exactly the houses the contiguity walk inspects. -/
def sideValidHouses (houses_by_number : List (Int × JValue)) (side_hns : List Int) :
    List (Int × Rat × Int) :=
  side_hns.filterMap (fun hn => (sideHouseData houses_by_number hn).map (fun zd => (hn, zd)))

/-- One step of the running expected-z: resynchronize to the observed z on
mismatch, then advance by the house's zsize. -/
def resyncStep (e : Rat) (v : Int × Rat × Int) : Rat :=
  qadd (if !approx_equal v.2.1 e then v.2.1 else e) ((v.2.2 : Int) : Rat)

/-- Running expected-z after a list of walked houses. -/
def expectedAt (e : Rat) (pre : List (Int × Rat × Int)) : Rat := pre.foldl resyncStep e

/-- Elements of a list paired with their proper prefixes. -/
def withPrefixes {α : Type} : List α → List (List α × α)
  | [] => []
  | x :: xs => ([], x) :: (withPrefixes xs).map (fun pv => (x :: pv.1, pv.2))

theorem withPrefixes_cons {α : Type} (x : α) (xs : List α) :
    withPrefixes (x :: xs) = ([], x) :: (withPrefixes xs).map (fun pv => (x :: pv.1, pv.2)) := rfl

theorem optIf_append (c : Bool) (i : Issue) (l : List Issue) :
    optIf c i ++ l = if c then i :: l else l := by
  cases c <;> rfl

theorem side_walk_spec (houses : List (Int × JValue)) (label : String) :
    ∀ (side_hns : List Int) (e : Rat),
    side_walk houses label e side_hns
      = ((withPrefixes (sideValidHouses houses side_hns)).filterMap (fun pv =>
          if !approx_equal pv.2.2.1 (expectedAt e pv.1) then
            some (gapIssue label pv.2.1 pv.2.2.1 (expectedAt e pv.1))
          else none),
        (sideValidHouses houses side_hns).map (fun v => v.2.2),
        expectedAt e (sideValidHouses houses side_hns))
  | [], e => by
    unfold side_walk
    rfl
  | hn :: rest, e => by
    rcases hd : sideHouseData houses hn with _ | zd
    · have hv : sideValidHouses houses (hn :: rest) = sideValidHouses houses rest := by
        unfold sideValidHouses
        rw [List.filterMap_cons, hd]
        rfl
      have hl : side_walk houses label e (hn :: rest) = side_walk houses label e rest := by
        conv_lhs => unfold side_walk
        rw [hd]
      rw [hl, hv]
      exact side_walk_spec houses label rest e
    · have hv : sideValidHouses houses (hn :: rest)
          = (hn, zd) :: sideValidHouses houses rest := by
        unfold sideValidHouses
        rw [List.filterMap_cons, hd]
        rfl
      have hl : side_walk houses label e (hn :: rest)
          = (optIf (!approx_equal zd.1 e) (gapIssue label hn zd.1 e)
              ++ (side_walk houses label (resyncStep e (hn, zd)) rest).1,
            zd.2 :: (side_walk houses label (resyncStep e (hn, zd)) rest).2.1,
            (side_walk houses label (resyncStep e (hn, zd)) rest).2.2) := by
        conv_lhs => unfold side_walk
        rw [hd]
        rfl
      rw [hl, hv]
      rw [side_walk_spec houses label rest (resyncStep e (hn, zd))]
      rw [withPrefixes_cons, List.filterMap_cons, List.filterMap_map, List.map_cons]
      have hexp : expectedAt e ((hn, zd) :: sideValidHouses houses rest)
          = expectedAt (resyncStep e (hn, zd)) (sideValidHouses houses rest) := rfl
      rw [hexp]
      have hfun : ((fun pv : List (Int × Rat × Int) × (Int × Rat × Int) =>
          if !approx_equal pv.2.2.1 (expectedAt e pv.1) then
            some (gapIssue label pv.2.1 pv.2.2.1 (expectedAt e pv.1))
          else none) ∘ (fun pv => ((hn, zd) :: pv.1, pv.2)))
          = (fun pv : List (Int × Rat × Int) × (Int × Rat × Int) =>
            if !approx_equal pv.2.2.1 (expectedAt (resyncStep e (hn, zd)) pv.1) then
              some (gapIssue label pv.2.1 pv.2.2.1 (expectedAt (resyncStep e (hn, zd)) pv.1))
            else none) := rfl
      rw [hfun]
      rcases hg : (!approx_equal zd.1 e) with _ | _
      · simp [hg, optIf, expectedAt]
      · simp [hg, optIf, expectedAt]

theorem approx_equal_false_iff (a b : Rat) : approx_equal a b = false ↔ EPS < |a - b| := by
  constructor
  · intro h
    by_contra hc
    rw [not_lt] at hc
    rw [(approx_equal_iff a b).mpr hc] at h
    cases h
  · intro h
    rcases ha : approx_equal a b with _ | _
    · rfl
    · exact absurd ((approx_equal_iff a b).mp ha) (not_le.mpr h)

/-- C5: the contiguity walk of `validate_street_geometry` over one parity
side, in the given houseNumber order over the houses with valid bounds, keeps
a running expected-z starting at 0; a house gets exactly one gap/overlap ERROR
naming the expected and the observed values exactly when its bounds.z differs
from the running value by more than epsilon; the running value then
resynchronizes to the observed z before advancing by the house's zsize
(`resyncStep`); after the walk a separate ERROR is emitted exactly when the
final running value differs from 200 by more than epsilon, with
epsilon = 1e-9. -/
theorem C5_contiguity_walk (houses : List (Int × JValue)) (side_hns : List Int)
    (side_label : String) :
    ((side_check houses side_hns side_label).1
      = (withPrefixes (sideValidHouses houses side_hns)).filterMap (fun pv =>
          if !approx_equal pv.2.2.1 (expectedAt 0 pv.1) then
            some (gapIssue side_label pv.2.1 pv.2.2.1 (expectedAt 0 pv.1))
          else none)
        ++ (if !approx_equal (expectedAt 0 (sideValidHouses houses side_hns)) 200 then
            [⟨"ERROR", "2.3.6.5", side_label ++ ": z-lengths sum/end at "
              ++ qRepr (expectedAt 0 (sideValidHouses houses side_hns)) ++ ", expected 200."⟩]
          else []))
    ∧ (∀ a b : Rat, approx_equal a b = false ↔ EPS < |a - b|)
    ∧ EPS = 1 / 1000000000
    ∧ (∀ (e : Rat) (v : Int × Rat × Int),
        resyncStep e v = (if EPS < |v.2.1 - e| then v.2.1 else e) + (v.2.2 : Rat)) := by
  refine ⟨?_, approx_equal_false_iff, ?_, ?_⟩
  · unfold side_check
    rw [side_walk_spec houses side_label side_hns 0]
    rfl
  · rw [EPS, Rat.mkRat_eq_div]
    norm_num
  · intro e v
    rw [resyncStep, qadd_eq]
    have hiff : ((!approx_equal v.2.1 e) = true) ↔ EPS < |v.2.1 - e| := by
      rw [Bool.not_eq_true']
      exact approx_equal_false_iff _ _
    congr 1
    exact if_congr hiff rfl rfl

/-- Edge relation of an adjacency map: `v` is a recorded neighbour of `u`. -/
def Adj (g : List (Int × List Int)) (u v : Int) : Prop := v ∈ adjOf g u

/-- Count of universe nodes not yet seen; the decreasing part of the BFS fuel
measure. -/
def unseenCount (univ seen : List Int) : Nat := (univ.filter (fun x => x ∉ seen)).length

theorem unseenCount_append_le : ∀ (univ seen : List Int) (u : Int),
    unseenCount univ (seen ++ [u]) ≤ unseenCount univ seen
  | [], _, _ => le_refl 0
  | y :: ys, seen, u => by
    unfold unseenCount
    rw [List.filter_cons, List.filter_cons]
    by_cases h1 : y ∈ seen
    · have h2 : y ∈ seen ++ [u] := List.mem_append_left _ h1
      rw [if_neg (by simp [h2]), if_neg (by simp [h1])]
      exact unseenCount_append_le ys seen u
    · by_cases h2 : y ∈ seen ++ [u]
      · rw [if_neg (by simp [h2]), if_pos (by simp [h1])]
        rw [List.length_cons]
        exact le_trans (unseenCount_append_le ys seen u) (Nat.le_succ _)
      · rw [if_pos (by simp [h2]), if_pos (by simp [h1])]
        rw [List.length_cons, List.length_cons]
        exact Nat.succ_le_succ (unseenCount_append_le ys seen u)

theorem unseenCount_append_lt : ∀ (univ seen : List Int) (u : Int), u ∈ univ → u ∉ seen →
    unseenCount univ (seen ++ [u]) < unseenCount univ seen
  | [], _, _, h, _ => absurd h (List.not_mem_nil _)
  | y :: ys, seen, u, h, hu => by
    unfold unseenCount
    rw [List.filter_cons, List.filter_cons]
    by_cases hyu : y = u
    · subst hyu
      have h2 : y ∈ seen ++ [y] := List.mem_append_right _ (List.mem_singleton.mpr rfl)
      rw [if_neg (by simp [h2]), if_pos (by simp [hu])]
      rw [List.length_cons]
      exact Nat.lt_succ_of_le (unseenCount_append_le ys seen y)
    · have hys : u ∈ ys := by
        rcases List.mem_cons.mp h with h3 | h3
        · exact absurd h3.symm hyu
        · exact h3
      by_cases h1 : y ∈ seen
      · have h2 : y ∈ seen ++ [u] := List.mem_append_left _ h1
        rw [if_neg (by simp [h2]), if_neg (by simp [h1])]
        exact unseenCount_append_lt ys seen u hys hu
      · have h2 : y ∉ seen ++ [u] := by
          intro hc
          rcases List.mem_append.mp hc with h3 | h3
          · exact h1 h3
          · exact hyu (List.mem_singleton.mp h3)
        rw [if_pos (by simp [h2]), if_pos (by simp [h1])]
        rw [List.length_cons, List.length_cons]
        exact Nat.succ_lt_succ (unseenCount_append_lt ys seen u hys hu)

theorem mem_bfsAux_of_seen (g : List (Int × List Int)) :
    ∀ (fuel : Nat) (seen q : List Int) (x : Int), x ∈ seen → x ∈ bfsAux g fuel seen q
  | 0, _, _, _, hx => hx
  | _ + 1, _, [], _, hx => hx
  | fuel + 1, seen, u :: q, x, hx => by
    unfold bfsAux
    split
    · exact mem_bfsAux_of_seen g fuel seen q x hx
    · exact mem_bfsAux_of_seen g fuel _ _ x (List.mem_append_left _ hx)

theorem bfsAux_spec (g : List (Int × List Int)) (univ : List Int) (D : Nat)
    (hadj : ∀ u : Int, ∀ v ∈ adjOf g u, v ∈ univ)
    (hdeg : ∀ u : Int, (adjOf g u).length ≤ D) :
    ∀ (fuel : Nat) (seen q : List Int),
    (∀ x ∈ q, x ∈ univ) →
    (∀ u ∈ seen, ∀ v ∈ adjOf g u, v ∈ seen ∨ v ∈ q) →
    ((unseenCount univ seen + 1) * (D + 1) + q.length ≤ fuel) →
    (∀ x ∈ seen, x ∈ bfsAux g fuel seen q)
    ∧ (∀ x ∈ q, x ∈ bfsAux g fuel seen q)
    ∧ (∀ u ∈ bfsAux g fuel seen q, ∀ v ∈ adjOf g u, v ∈ bfsAux g fuel seen q)
    ∧ (∀ x ∈ bfsAux g fuel seen q, x ∈ seen ∨ ∃ s ∈ q, Relation.ReflTransGen (Adj g) s x)
  | 0, seen, q, _, _, hfuel => by
    exfalso
    have h1 : 1 ≤ (unseenCount univ seen + 1) * (D + 1) :=
      Nat.one_le_iff_ne_zero.mpr (Nat.mul_ne_zero (Nat.succ_ne_zero _) (Nat.succ_ne_zero _))
    omega
  | fuel + 1, seen, [], _, hcl, _ => by
    have hb : bfsAux g (fuel + 1) seen [] = seen := rfl
    rw [hb]
    refine ⟨fun x hx => hx, fun x hx => absurd hx (List.not_mem_nil x), ?_, fun x hx => Or.inl hx⟩
    intro w hw v hv
    rcases hcl w hw v hv with h | h
    · exact h
    · cases h
  | fuel + 1, seen, u :: q, hq, hcl, hfuel => by
    by_cases hu : u ∈ seen
    · have hb : bfsAux g (fuel + 1) seen (u :: q) = bfsAux g fuel seen q := by
        conv_lhs => unfold bfsAux
        rw [if_pos hu]
      have hq' : ∀ x ∈ q, x ∈ univ := fun x hx => hq x (List.mem_cons_of_mem u hx)
      have hcl' : ∀ w ∈ seen, ∀ v ∈ adjOf g w, v ∈ seen ∨ v ∈ q := by
        intro w hw v hv
        rcases hcl w hw v hv with h | h
        · exact Or.inl h
        · rcases List.mem_cons.mp h with rfl | h2
          · exact Or.inl hu
          · exact Or.inr h2
      have hfuel' : (unseenCount univ seen + 1) * (D + 1) + q.length ≤ fuel := by
        rw [List.length_cons] at hfuel
        omega
      obtain ⟨i1, i2, i3, i4⟩ := bfsAux_spec g univ D hadj hdeg fuel seen q hq' hcl' hfuel'
      rw [hb]
      refine ⟨i1, ?_, i3, ?_⟩
      · intro x hx
        rcases List.mem_cons.mp hx with rfl | h2
        · exact i1 x hu
        · exact i2 x h2
      · intro x hx
        rcases i4 x hx with h | ⟨s, hs, hr⟩
        · exact Or.inl h
        · exact Or.inr ⟨s, List.mem_cons_of_mem u hs, hr⟩
    · have hb : bfsAux g (fuel + 1) seen (u :: q)
          = bfsAux g fuel (seen ++ [u])
              (q ++ (adjOf g u).filter (fun v => v ∉ seen ++ [u])) := by
        conv_lhs => unfold bfsAux
        rw [if_neg hu]
      have huuniv : u ∈ univ := hq u (List.mem_cons_self u q)
      have hq' : ∀ x ∈ q ++ (adjOf g u).filter (fun v => v ∉ seen ++ [u]), x ∈ univ := by
        intro x hx
        rcases List.mem_append.mp hx with h | h
        · exact hq x (List.mem_cons_of_mem u h)
        · exact hadj u x (List.mem_of_mem_filter h)
      have hcl' : ∀ w ∈ seen ++ [u], ∀ v ∈ adjOf g w,
          v ∈ seen ++ [u] ∨ v ∈ q ++ (adjOf g u).filter (fun v => v ∉ seen ++ [u]) := by
        intro w hw v hv
        rcases List.mem_append.mp hw with hw1 | hw1
        · rcases hcl w hw1 v hv with h | h
          · exact Or.inl (List.mem_append_left _ h)
          · rcases List.mem_cons.mp h with rfl | h2
            · exact Or.inl (List.mem_append_right _ (List.mem_singleton.mpr rfl))
            · exact Or.inr (List.mem_append_left _ h2)
        · have hwu : w = u := List.mem_singleton.mp hw1
          subst hwu
          by_cases hv2 : v ∈ seen ++ [w]
          · exact Or.inl hv2
          · refine Or.inr (List.mem_append_right _ ?_)
            exact List.mem_filter.mpr ⟨hv, by simpa using hv2⟩
      have hfuel' : (unseenCount univ (seen ++ [u]) + 1) * (D + 1)
          + (q ++ (adjOf g u).filter (fun v => v ∉ seen ++ [u])).length ≤ fuel := by
        have hlt := unseenCount_append_lt univ seen u huuniv hu
        have hdg : ((adjOf g u).filter (fun v => v ∉ seen ++ [u])).length ≤ D :=
          le_trans (List.length_filter_le _ _) (hdeg u)
        have hmul : (unseenCount univ (seen ++ [u]) + 1) * (D + 1)
            ≤ unseenCount univ seen * (D + 1) := Nat.mul_le_mul_right _ (by omega)
        have hexp : (unseenCount univ seen + 1) * (D + 1)
            = unseenCount univ seen * (D + 1) + (D + 1) := by ring
        rw [List.length_append]
        rw [List.length_cons] at hfuel
        omega
      obtain ⟨i1, i2, i3, i4⟩ := bfsAux_spec g univ D hadj hdeg fuel (seen ++ [u]) _ hq' hcl' hfuel'
      rw [hb]
      refine ⟨?_, ?_, i3, ?_⟩
      · exact fun x hx => i1 x (List.mem_append_left _ hx)
      · intro x hx
        rcases List.mem_cons.mp hx with rfl | h2
        · exact i1 x (List.mem_append_right _ (List.mem_singleton.mpr rfl))
        · exact i2 x (List.mem_append_left _ h2)
      · intro x hx
        rcases i4 x hx with h | ⟨s, hs, hr⟩
        · rcases List.mem_append.mp h with h1 | h1
          · exact Or.inl h1
          · have hxu : x = u := List.mem_singleton.mp h1
            subst hxu
            exact Or.inr ⟨x, List.mem_cons_self x q, Relation.ReflTransGen.refl⟩
        · rcases List.mem_append.mp hs with h1 | h1
          · exact Or.inr ⟨s, List.mem_cons_of_mem u h1, hr⟩
          · refine Or.inr ⟨u, List.mem_cons_self u q, ?_⟩
            exact Relation.ReflTransGen.head (List.mem_of_mem_filter h1) hr

theorem adjOf_length_le : ∀ (g : List (Int × List Int)) (u : Int),
    (adjOf g u).length ≤ graphDeg g
  | [], u => by simp [adjOf, alookup, graphDeg]
  | (k, vs) :: rest, u => by
    unfold adjOf alookup
    by_cases h : k = u
    · rw [if_pos h]
      show vs.length ≤ graphDeg ((k, vs) :: rest)
      unfold graphDeg
      rw [List.map_cons, List.foldr_cons]
      exact le_max_left _ _
    · rw [if_neg h]
      show (adjOf rest u).length ≤ graphDeg ((k, vs) :: rest)
      unfold graphDeg
      rw [List.map_cons, List.foldr_cons]
      exact le_trans (adjOf_length_le rest u) (le_max_right _ _)

/-- With the fuel chosen by `bfsFuel`, the breadth-first traversal from `start`
computes exactly the reflexive-transitive closure of the edge relation. -/
theorem bfsAux_mem_iff (g : List (Int × List Int)) (univ : List Int)
    (hadj : ∀ u : Int, ∀ v ∈ adjOf g u, v ∈ univ) (start : Int) (hstart : start ∈ univ)
    (x : Int) :
    x ∈ bfsAux g (bfsFuel g univ 1) [] [start] ↔ Relation.ReflTransGen (Adj g) start x := by
  have hfuel : (unseenCount univ [] + 1) * (graphDeg g + 1) + ([start] : List Int).length
      ≤ bfsFuel g univ 1 := by
    have hun : unseenCount univ [] = univ.length := by
      unfold unseenCount
      simp
    rw [hun, List.length_singleton]
    unfold bfsFuel
    exact Nat.le_refl _
  obtain ⟨i1, i2, i3, i4⟩ := bfsAux_spec g univ (graphDeg g) hadj (adjOf_length_le g)
    (bfsFuel g univ 1) [] [start]
    (by intro y hy; rw [List.mem_singleton.mp hy]; exact hstart)
    (by intro u hu; cases hu) hfuel
  constructor
  · intro hx
    rcases i4 x hx with h | ⟨s, hs, hr⟩
    · cases h
    · have hsx : s = start := List.mem_singleton.mp hs
      rw [hsx] at hr
      exact hr
  · intro hr
    induction hr with
    | refl => exact i2 start (List.mem_singleton.mpr rfl)
    | tail h e ih => exact i3 _ ih _ e

/-- The break-style adult search equals `any` of the adult test over the full
breadth-first traversal, provided no already-seen node passes the test. -/
theorem find_adult_eq_any (g : List (Int × List Int)) (chars : List (Int × JValue)) (cid : Int) :
    ∀ (fuel : Nat) (seen q : List Int),
    (∀ x ∈ seen, adultPred chars cid x = false) →
    find_adult_aux g chars cid fuel seen q = (bfsAux g fuel seen q).any (adultPred chars cid)
  | 0, seen, q, hpre => by
    have hb : bfsAux g 0 seen q = seen := rfl
    have hf : find_adult_aux g chars cid 0 seen q = false := rfl
    rw [hb, hf, eq_comm, List.any_eq_false]
    intro x hx
    simp [hpre x hx]
  | fuel + 1, seen, [], hpre => by
    have hb : bfsAux g (fuel + 1) seen [] = seen := rfl
    have hf : find_adult_aux g chars cid (fuel + 1) seen [] = false := rfl
    rw [hb, hf, eq_comm, List.any_eq_false]
    intro x hx
    simp [hpre x hx]
  | fuel + 1, seen, u :: q, hpre => by
    by_cases hu : u ∈ seen
    · have hb : bfsAux g (fuel + 1) seen (u :: q) = bfsAux g fuel seen q := by
        conv_lhs => unfold bfsAux
        rw [if_pos hu]
      have hf : find_adult_aux g chars cid (fuel + 1) seen (u :: q)
          = find_adult_aux g chars cid fuel seen q := by
        conv_lhs => unfold find_adult_aux
        rw [if_pos hu]
      rw [hb, hf]
      exact find_adult_eq_any g chars cid fuel seen q hpre
    · have hb : bfsAux g (fuel + 1) seen (u :: q)
          = bfsAux g fuel (seen ++ [u]) (q ++ (adjOf g u).filter (fun v => v ∉ seen ++ [u])) := by
        conv_lhs => unfold bfsAux
        rw [if_neg hu]
      by_cases hp : adultPred chars cid u = true
      · have hf : find_adult_aux g chars cid (fuel + 1) seen (u :: q) = true := by
          conv_lhs => unfold find_adult_aux
          rw [if_neg hu, if_pos hp]
        rw [hf, hb, eq_comm, List.any_eq_true]
        exact ⟨u, mem_bfsAux_of_seen g fuel _ _ u
          (List.mem_append_right _ (List.mem_singleton.mpr rfl)), hp⟩
      · have hf : find_adult_aux g chars cid (fuel + 1) seen (u :: q)
            = find_adult_aux g chars cid fuel (seen ++ [u])
                (q ++ (adjOf g u).filter (fun v => v ∉ seen ++ [u])) := by
          conv_lhs => unfold find_adult_aux
          rw [if_neg hu, if_neg hp]
        rw [hf, hb]
        refine find_adult_eq_any g chars cid fuel (seen ++ [u]) _ ?_
        intro x hx
        rcases List.mem_append.mp hx with h1 | h1
        · exact hpre x h1
        · rw [List.mem_singleton.mp h1]
          exact Bool.eq_false_iff.mpr hp

/-- The minor-guardianship search succeeds exactly when some node reachable from
the minor passes the adult test. -/
theorem find_adult_iff (g : List (Int × List Int)) (univ : List Int)
    (hadj : ∀ u : Int, ∀ v ∈ adjOf g u, v ∈ univ)
    (chars : List (Int × JValue)) (cid : Int) (hstart : cid ∈ univ) :
    find_adult_aux g chars cid (bfsFuel g univ 1) [] [cid] = true
      ↔ ∃ v : Int, Relation.ReflTransGen (Adj g) cid v ∧ adultPred chars cid v = true := by
  rw [find_adult_eq_any g chars cid (bfsFuel g univ 1) [] [cid]
    (fun x hx => absurd hx (List.not_mem_nil x))]
  rw [List.any_eq_true]
  constructor
  · rintro ⟨v, hv, hp⟩
    exact ⟨v, (bfsAux_mem_iff g univ hadj cid hstart v).mp hv, hp⟩
  · rintro ⟨v, hr, hp⟩
    exact ⟨v, (bfsAux_mem_iff g univ hadj cid hstart v).mpr hr, hp⟩

theorem mem_setAdd {l : List Int} {x v : Int} (h : v ∈ setAdd l x) : v ∈ l ∨ v = x := by
  unfold setAdd at h
  split at h
  · exact Or.inl h
  · rcases List.mem_append.mp h with h1 | h1
    · exact Or.inl h1
    · exact Or.inr (List.mem_singleton.mp h1)

theorem alookup_map_entry_self {κ : Type} [DecidableEq κ] (x : Int) (k : κ) :
    ∀ m : List (κ × List Int),
    alookup (m.map (fun e => if e.1 = k then (e.1, setAdd e.2 x) else e)) k
      = (alookup m k).map (fun w => setAdd w x)
  | [] => rfl
  | (a, w) :: rest => by
    simp only [List.map_cons]
    by_cases hak : a = k
    · rw [if_pos hak]
      unfold alookup
      rw [if_pos hak, if_pos hak]
      rfl
    · rw [if_neg hak]
      unfold alookup
      rw [if_neg hak, if_neg hak]
      exact alookup_map_entry_self x k rest

theorem alookup_map_entry_ne {κ : Type} [DecidableEq κ] (x : Int) (k u : κ)
    (hne : u ≠ k) :
    ∀ m : List (κ × List Int),
    alookup (m.map (fun e => if e.1 = k then (e.1, setAdd e.2 x) else e)) u = alookup m u
  | [] => rfl
  | (a, w) :: rest => by
    simp only [List.map_cons]
    by_cases hak : a = k
    · rw [if_pos hak]
      unfold alookup
      have hau : ¬ a = u := fun h2 => hne (h2 ▸ hak)
      rw [if_neg hau, if_neg hau]
      exact alookup_map_entry_ne x k u hne rest
    · rw [if_neg hak]
      unfold alookup
      by_cases hau : a = u
      · rw [if_pos hau, if_pos hau]
      · rw [if_neg hau, if_neg hau]
        exact alookup_map_entry_ne x k u hne rest

theorem hasKey_mapAdd {κ : Type} [DecidableEq κ] (m : List (κ × List Int)) (k : κ) (x : Int)
    (u : κ) : hasKey (mapAdd m k x) u = true ↔ hasKey m u = true ∨ u = k := by
  unfold mapAdd
  by_cases h : hasKey m k
  · rw [if_pos h]
    by_cases huk : u = k
    · subst huk
      unfold hasKey
      rw [alookup_map_entry_self]
      constructor
      · intro _
        exact Or.inr rfl
      · intro _
        unfold hasKey at h
        rcases Option.isSome_iff_exists.mp h with ⟨w, hw⟩
        rw [hw]
        rfl
    · unfold hasKey
      rw [alookup_map_entry_ne _ _ _ huk]
      constructor
      · exact Or.inl
      · intro h2
        rcases h2 with h2 | h2
        · exact h2
        · exact absurd h2 huk
  · rw [if_neg h]
    unfold hasKey
    by_cases hmu : (alookup m u).isSome
    · rcases Option.isSome_iff_exists.mp hmu with ⟨w, hw⟩
      rw [alookup_append_some hw]
      simp [hw]
    · have hm : alookup m u = none := Option.not_isSome_iff_eq_none.mp hmu
      rw [alookup_append_none hm]
      by_cases hku : k = u
      · rw [if_pos hku]
        simp [hm, hku.symm]
      · rw [if_neg hku]
        simp [hm]
        exact fun h2 => hku h2.symm

theorem mem_adjOf_mapAdd {m : List (Int × List Int)} {k : Int} {x u v : Int}
    (h : v ∈ adjOf (mapAdd m k x) u) : v ∈ adjOf m u ∨ v = x := by
  unfold mapAdd at h
  by_cases hk : hasKey m k
  · rw [if_pos hk] at h
    by_cases huk : u = k
    · subst huk
      unfold adjOf at h
      rw [alookup_map_entry_self] at h
      rcases halu : alookup m u with _ | w
      · rw [halu] at h
        simp at h
      · rw [halu] at h
        have h2 : v ∈ setAdd w x := h
        rcases mem_setAdd h2 with h3 | h3
        · left
          unfold adjOf
          rw [halu]
          exact h3
        · exact Or.inr h3
    · unfold adjOf at h
      rw [alookup_map_entry_ne _ _ _ huk] at h
      exact Or.inl h
  · rw [if_neg hk] at h
    unfold adjOf at h
    rcases halu : alookup m u with _ | w
    · rw [alookup_append_none halu] at h
      by_cases hku : k = u
      · rw [if_pos hku] at h
        have h2 : v ∈ [x] := h
        exact Or.inr (List.mem_singleton.mp h2)
      · rw [if_neg hku] at h
        simp at h
    · rw [alookup_append_some halu] at h
      left
      unfold adjOf
      rw [halu]
      exact h

theorem mem_firstDistinctAux {α : Type} [DecidableEq α] :
    ∀ (seen l : List α) (x : α), x ∈ firstDistinctAux seen l ↔ x ∈ l ∧ x ∉ seen
  | _, [], _ => by simp [firstDistinctAux]
  | seen, y :: ys, x => by
    unfold firstDistinctAux
    by_cases hy : y ∈ seen
    · rw [if_pos hy, mem_firstDistinctAux seen ys x]
      constructor
      · rintro ⟨h1, h2⟩
        exact ⟨List.mem_cons_of_mem y h1, h2⟩
      · rintro ⟨h1, h2⟩
        rcases List.mem_cons.mp h1 with rfl | h3
        · exact absurd hy h2
        · exact ⟨h3, h2⟩
    · rw [if_neg hy, List.mem_cons, mem_firstDistinctAux (y :: seen) ys x]
      constructor
      · rintro (rfl | ⟨h1, h2⟩)
        · exact ⟨List.mem_cons_self _ _, hy⟩
        · exact ⟨List.mem_cons_of_mem y h1, fun hc => h2 (List.mem_cons_of_mem y hc)⟩
      · rintro ⟨h1, h2⟩
        rcases List.mem_cons.mp h1 with rfl | h3
        · exact Or.inl rfl
        · by_cases hxy : x = y
          · exact Or.inl hxy
          · exact Or.inr ⟨h3, fun hc => (List.mem_cons.mp hc).elim hxy h2⟩

theorem mem_firstDistinct {α : Type} [DecidableEq α] (l : List α) (x : α) :
    x ∈ firstDistinct l ↔ x ∈ l := by
  unfold firstDistinct
  rw [mem_firstDistinctAux]
  simp

theorem alookup_map_nil : ∀ (l : List Int) (u : Int),
    alookup (l.map (fun o => (o, ([] : List Int)))) u = if u ∈ l then some [] else none
  | [], u => by simp [alookup]
  | y :: ys, u => by
    simp only [List.map_cons]
    unfold alookup
    by_cases h : y = u
    · rw [if_pos h, if_pos (by rw [h]; exact List.mem_cons_self u ys)]
    · rw [if_neg h, alookup_map_nil ys u]
      by_cases h2 : u ∈ ys
      · rw [if_pos h2, if_pos (List.mem_cons_of_mem y h2)]
      · rw [if_neg h2, if_neg (fun hc => (List.mem_cons.mp hc).elim (fun he => h he.symm) h2)]

/-- Well-formedness of the relation graph over an occupant list: its keys are
exactly the occupants, and every recorded neighbour is an occupant. -/
def GOK (occ : List Int) (g : List (Int × List Int)) : Prop :=
  (∀ k : Int, hasKey g k = true ↔ k ∈ occ) ∧ (∀ u v : Int, v ∈ adjOf g u → v ∈ occ)

theorem GOK_mapAdd {occ : List Int} {g : List (Int × List Int)} {a b : Int}
    (hg : GOK occ g) (ha : a ∈ occ) (hb : b ∈ occ) : GOK occ (mapAdd g a b) := by
  constructor
  · intro k
    rw [hasKey_mapAdd]
    constructor
    · rintro (h | rfl)
      · exact (hg.1 k).mp h
      · exact ha
    · intro h
      exact Or.inl ((hg.1 k).mpr h)
  · intro u v hv
    rcases mem_adjOf_mapAdd hv with h | rfl
    · exact hg.2 u v h
    · exact hb

theorem GOK_g0 (occ : List Int) :
    GOK occ ((firstDistinct occ).map (fun o => (o, ([] : List Int)))) := by
  constructor
  · intro k
    unfold hasKey
    rw [alookup_map_nil]
    by_cases h : k ∈ firstDistinct occ
    · rw [if_pos h]
      simp [(mem_firstDistinct occ k).mp h]
    · rw [if_neg h]
      simp
      intro hc
      exact h ((mem_firstDistinct occ k).mpr hc)
  · intro u v hv
    unfold adjOf at hv
    rw [alookup_map_nil] at hv
    by_cases h : u ∈ firstDistinct occ
    · rw [if_pos h] at hv
      simp at hv
    · rw [if_neg h] at hv
      simp at hv

theorem GOK_spouse_fold (sp : List (Int × Int)) (occ : List Int) :
    ∀ (l : List Int) (g : List (Int × List Int)), (∀ x ∈ l, x ∈ occ) → GOK occ g →
    GOK occ (l.foldl (fun g a =>
      match alookup sp a with
      | some b => if b ∈ occ then mapAdd (mapAdd g a b) b a else g
      | none => g) g)
  | [], _, _, hg => hg
  | a :: rest, g, hl, hg => by
    simp only [List.foldl_cons]
    refine GOK_spouse_fold sp occ rest _ (fun x hx => hl x (List.mem_cons_of_mem a hx)) ?_
    cases hsp : alookup sp a with
    | none => exact hg
    | some b =>
      show GOK occ (if b ∈ occ then mapAdd (mapAdd g a b) b a else g)
      by_cases hbo : b ∈ occ
      · rw [if_pos hbo]
        exact GOK_mapAdd (GOK_mapAdd hg (hl a (List.mem_cons_self a rest)) hbo) hbo
          (hl a (List.mem_cons_self a rest))
      · rw [if_neg hbo]
        exact hg

theorem GOK_child_fold (occ : List Int) (p : Int) (hp : p ∈ occ) :
    ∀ (chl : List Int) (g : List (Int × List Int)), GOK occ g →
    GOK occ (chl.foldl (fun g3 ch => if ch ∈ occ then mapAdd (mapAdd g3 p ch) ch p else g3) g)
  | [], _, hg => hg
  | ch :: rest, g, hg => by
    simp only [List.foldl_cons]
    refine GOK_child_fold occ p hp rest _ ?_
    by_cases hc : ch ∈ occ
    · rw [if_pos hc]
      exact GOK_mapAdd (GOK_mapAdd hg hp hc) hc hp
    · rw [if_neg hc]
      exact hg

theorem GOK_parent_fold (cop : List (Int × List Int)) (occ : List Int) :
    ∀ (l : List Int) (g : List (Int × List Int)), (∀ x ∈ l, x ∈ occ) → GOK occ g →
    GOK occ (l.foldl (fun g p =>
      ((alookup cop p).getD []).foldl (fun g3 ch =>
        if ch ∈ occ then mapAdd (mapAdd g3 p ch) ch p else g3) g) g)
  | [], _, _, hg => hg
  | p :: rest, g, hl, hg => by
    simp only [List.foldl_cons]
    exact GOK_parent_fold cop occ rest _ (fun x hx => hl x (List.mem_cons_of_mem p hx))
      (GOK_child_fold occ p (hl p (List.mem_cons_self p rest)) ((alookup cop p).getD []) g hg)

theorem GOK_sib_inner (poc : List (Int × List Int)) (occ : List Int) (a : Int) (ha : a ∈ occ) :
    ∀ (l : List Int) (g : List (Int × List Int)), (∀ x ∈ l, x ∈ occ) → GOK occ g →
    GOK occ (l.foldl (fun g2 b =>
      let pa := (alookup poc a).getD []
      let pb := (alookup poc b).getD []
      if !pa.isEmpty && !pb.isEmpty && pa.any (fun x => x ∈ pb) then
        mapAdd (mapAdd g2 a b) b a
      else g2) g)
  | [], _, _, hg => hg
  | b :: rest, g, hl, hg => by
    simp only [List.foldl_cons]
    refine GOK_sib_inner poc occ a ha rest _ (fun x hx => hl x (List.mem_cons_of_mem b hx)) ?_
    show GOK occ (if !((alookup poc a).getD []).isEmpty && !((alookup poc b).getD []).isEmpty
        && ((alookup poc a).getD []).any (fun x => x ∈ (alookup poc b).getD [])
      then mapAdd (mapAdd g a b) b a else g)
    split
    · exact GOK_mapAdd (GOK_mapAdd hg ha (hl b (List.mem_cons_self b rest)))
        (hl b (List.mem_cons_self b rest)) ha
    · exact hg

theorem GOK_sibEdges (poc : List (Int × List Int)) (occ : List Int) :
    ∀ (l : List Int) (g : List (Int × List Int)), (∀ x ∈ l, x ∈ occ) → GOK occ g →
    GOK occ (sibEdges poc l g)
  | [], _, _, hg => hg
  | a :: rest, g, hl, hg => by
    unfold sibEdges
    exact GOK_sibEdges poc occ rest _ (fun x hx => hl x (List.mem_cons_of_mem a hx))
      (GOK_sib_inner poc occ a (hl a (List.mem_cons_self a rest)) rest g
        (fun x hx => hl x (List.mem_cons_of_mem a hx)) hg)

/-- The relationship graph built by `related_edges` is well formed over its
occupant list. -/
theorem GOK_related_edges (sp : List (Int × Int)) (cop poc : List (Int × List Int))
    (occ : List Int) : GOK occ (related_edges sp cop poc occ) := by
  unfold related_edges
  exact GOK_sibEdges poc occ occ _ (fun x hx => hx)
    (GOK_parent_fold cop occ occ _ (fun x hx => hx)
      (GOK_spouse_fold sp occ occ _ (fun x hx => hx) (GOK_g0 occ)))

theorem reach_mem_of_adj_sub {g : List (Int × List Int)} {occ : List Int}
    (hsub : ∀ u v : Int, v ∈ adjOf g u → v ∈ occ) {s x : Int}
    (hr : Relation.ReflTransGen (Adj g) s x) : x = s ∨ x ∈ occ := by
  induction hr with
  | refl => exact Or.inl rfl
  | tail h e _ => exact Or.inr (hsub _ _ e)

theorem isEmpty_false_of_hasKey {κ α : Type} [DecidableEq κ] {m : List (κ × α)} {k : κ}
    (h : hasKey m k = true) : m.isEmpty = false := by
  cases m with
  | nil => simp [hasKey, alookup] at h
  | cons e rest => rfl

theorem alookup_of_mem_nodup {κ α : Type} [DecidableEq κ] :
    ∀ {m : List (κ × α)} {k : κ} {v : α}, (m.map Prod.fst).Nodup → (k, v) ∈ m →
    alookup m k = some v
  | [], _, _, _, hm => absurd hm (List.not_mem_nil _)
  | (k0, v0) :: rest, k, v, hnd, hm => by
    unfold alookup
    rcases List.mem_cons.mp hm with h | h
    · injection h with h1 h2
      rw [if_pos h1.symm, h2]
    · by_cases hk : k0 = k
      · exfalso
        rw [List.map_cons, List.nodup_cons] at hnd
        apply hnd.1
        rw [hk]
        exact List.mem_map.mpr ⟨(k, v), h, rfl⟩
      · rw [if_neg hk]
        exact alookup_of_mem_nodup
          (by rw [List.map_cons, List.nodup_cons] at hnd; exact hnd.2) h

theorem mem_minorOccsHouse_of (chars houses : List (Int × JValue)) {cid hn : Int} {h2 : JValue}
    (hl : alookup houses hn = some h2) (hmem : cid ∈ houseOccupantIds h2)
    (hck : hasKey chars cid = true) : cid ∈ minorOccsHouse chars houses hn := by
  unfold minorOccsHouse
  rw [hl]
  simp only [Option.getD_some]
  unfold houseOccupantIds at hmem
  rcases hocc : jgetD h2 "occupants" (jarr []) with _ | _ | _ | _ | _ | occs | _
  all_goals rw [hocc] at hmem
  case jarr =>
    have hmem2 : cid ∈ occs.filterMap (fun o => if is_int o then some (intOf o) else none) :=
      hmem
    show cid ∈ occs.filterMap (fun o =>
      if is_int o && hasKey chars (intOf o) then some (intOf o) else none)
    rcases List.mem_filterMap.mp hmem2 with ⟨o, ho, hif⟩
    refine List.mem_filterMap.mpr ⟨o, ho, ?_⟩
    by_cases hio : is_int o
    · rw [if_pos hio] at hif
      injection hif with h3
      rw [h3, if_pos (by rw [hio, hck]; rfl)]
    · rw [if_neg (by simp [hio])] at hif
      cases hif
  all_goals exact absurd (show cid ∈ ([] : List Int) from hmem) (List.not_mem_nil _)

/-- C3: for every non-player character with integer age ≤ 17 that is mapped to
a house by the occupant index, the minor-guardianship check of
`validate_cross_file_consistency` builds the undirected
spouse/parent-child/sibling graph restricted to that house's known occupants
and searches it breadth-first from the minor: the 2.2.4.1 ERROR is emitted
exactly when no node reachable from the minor passes the adult test (integer
age ≥ 18 and distinct from the minor), its message listing the sorted age-≥18
occupants present in the house; and the per-character issues embed in the
output of `validate_cross_file_consistency`. -/
theorem C3_minor_guardianship (chars houses : List (Int × JValue)) (sp : List (Int × Int))
    (cop poc : List (Int × List Int)) (cid : Int) (c : JValue) (hn : Int)
    (hnodup : (houses.map Prod.fst).Nodup)
    (hmem : (cid, c) ∈ chars)
    (hck : hasKey chars cid = true)
    (hcid : ¬cid = 0)
    (hage : is_int (jgetD c "age" jnull) = true)
    (hminor : intOf (jgetD c "age" jnull) ≤ 17)
    (hhn : alookup (build_house_index houses) cid = some hn) :
    (¬(∃ v : Int, Relation.ReflTransGen
          (Adj (related_edges sp cop poc (minorOccsHouse chars houses hn))) cid v
        ∧ adultPred chars cid v = true) →
      minor_guardian_issue chars houses sp cop poc (build_house_index houses) cid c
        = [⟨"ERROR", "2.2.4.1", "Minor NPC id=" ++ toString cid ++ " age="
            ++ toString (intOf (jgetD c "age" jnull)) ++ " in house " ++ toString hn
            ++ " does not live with a related adult family member. Adult occupants present: "
            ++ intListRepr (sortedInts (adultsInHouse chars (minorOccsHouse chars houses hn)))⟩])
    ∧ ((∃ v : Int, Relation.ReflTransGen
          (Adj (related_edges sp cop poc (minorOccsHouse chars houses hn))) cid v
        ∧ adultPred chars cid v = true) →
      minor_guardian_issue chars houses sp cop poc (build_house_index houses) cid c = [])
    ∧ (∀ i ∈ minor_guardian_issue chars houses sp cop poc (build_house_index houses) cid c,
        i ∈ validate_cross_file_consistency chars houses sp poc cop) := by
  have hsub : ∀ i ∈ minor_guardian_issue chars houses sp cop poc (build_house_index houses)
      cid c, i ∈ validate_cross_file_consistency chars houses sp poc cop := by
    intro i hi
    unfold validate_cross_file_consistency
    refine List.mem_append_left _ (List.mem_append_right _ ?_)
    exact List.mem_flatMap.mpr ⟨(cid, c), hmem, hi⟩
  have hfind : alookup (build_house_index houses) cid
      = (houses.find? (fun e => decide (cid ∈ houseOccupantIds e.2))).map Prod.fst :=
    build_house_index_aux_none houses [] rfl
  rw [hhn] at hfind
  rcases hfound : houses.find? (fun e => decide (cid ∈ houseOccupantIds e.2)) with _ | ⟨hn1, hv⟩
  · rw [hfound] at hfind
    cases hfind
  · rw [hfound] at hfind
    injection hfind with h6
    have h7 : hn = hn1 := h6
    subst h7
    have hcidocc : cid ∈ houseOccupantIds hv := by
      have h9 := List.find?_some hfound
      simp only [decide_eq_true_eq] at h9
      exact h9
    have hmemh : (hn, hv) ∈ houses := List.mem_of_find?_eq_some hfound
    have halh : alookup houses hn = some hv := alookup_of_mem_nodup hnodup hmemh
    obtain ⟨occs, hocc2⟩ : ∃ occs, jgetD hv "occupants" (jarr []) = jarr occs := by
      unfold houseOccupantIds at hcidocc
      rcases h5 : jgetD hv "occupants" (jarr []) with _ | _ | _ | _ | _ | l | _
      all_goals rw [h5] at hcidocc
      case jarr => exact ⟨l, rfl⟩
      all_goals exact absurd (show cid ∈ ([] : List Int) from hcidocc) (List.not_mem_nil _)
    have hoccs_eq : minorOccsHouse chars houses hn = mgOccsHouse chars occs := by
      unfold minorOccsHouse
      rw [halh]
      simp only [Option.getD_some]
      rw [hocc2]
    have hoccmem : cid ∈ minorOccsHouse chars houses hn :=
      mem_minorOccsHouse_of chars houses halh hcidocc hck
    have hO : cid ∈ mgOccsHouse chars occs := hoccs_eq ▸ hoccmem
    have hgok := GOK_related_edges sp cop poc (mgOccsHouse chars occs)
    have hiff : mgHasAdult chars sp cop poc cid (mgOccsHouse chars occs) = true
        ↔ ∃ v : Int, Relation.ReflTransGen
            (Adj (related_edges sp cop poc (mgOccsHouse chars occs))) cid v
          ∧ adultPred chars cid v = true := by
      unfold mgHasAdult
      by_cases hlen : (mgOccsHouse chars occs).length ≥ 2
      · rw [if_pos hlen]
        have hkey : hasKey (related_edges sp cop poc (mgOccsHouse chars occs)) cid = true :=
          (hgok.1 cid).mpr hO
        have hne2 : (related_edges sp cop poc (mgOccsHouse chars occs)).isEmpty = false :=
          isEmpty_false_of_hasKey hkey
        rw [if_pos (by rw [hkey, hne2]; rfl)]
        exact find_adult_iff _ _ (fun u v hv2 => hgok.2 u v hv2) chars cid hO
      · rw [if_neg hlen]
        constructor
        · intro hfalse
          cases hfalse
        · rintro ⟨v, hr, hp⟩
          exfalso
          rcases reach_mem_of_adj_sub (fun u w hw => hgok.2 u w hw) hr with rfl | hv2
          · simp [adultPred] at hp
          · have hveq : v = cid := by
              rcases hocc3 : mgOccsHouse chars occs with _ | ⟨a, rest⟩
              · rw [hocc3] at hO
                cases hO
              · rw [hocc3] at hO hv2 hlen
                cases rest with
                | nil =>
                  rw [List.mem_singleton.mp hv2, List.mem_singleton.mp hO]
                | cons b r2 =>
                  exact absurd (by rw [List.length_cons, List.length_cons]; omega) hlen
            rw [hveq] at hp
            simp [adultPred] at hp
    have heq : minor_guardian_issue chars houses sp cop poc (build_house_index houses) cid c
        = if !mgHasAdult chars sp cop poc cid (mgOccsHouse chars occs) then
            [⟨"ERROR", "2.2.4.1", "Minor NPC id=" ++ toString cid ++ " age="
              ++ toString (intOf (jgetD c "age" jnull)) ++ " in house " ++ toString hn
              ++ " does not live with a related adult family member. Adult occupants present: "
              ++ intListRepr (sortedInts (adultsInHouse chars (mgOccsHouse chars occs)))⟩]
          else [] := by
      unfold minor_guardian_issue
      rw [if_neg hcid, if_neg (by rw [hage]; decide), if_pos hminor]
      rcases hx : alookup (build_house_index houses) cid with _ | hn2
      · rw [hx] at hhn
        cases hhn
      · rw [hx] at hhn
        injection hhn with h8
        subst h8
        show (match jgetD ((alookup houses hn2).getD (jobj [])) "occupants" (jarr []) with
          | .jarr occs2 =>
            if !mgHasAdult chars sp cop poc cid (mgOccsHouse chars occs2) then
              [(⟨"ERROR", "2.2.4.1", "Minor NPC id=" ++ toString cid ++ " age="
                ++ toString (intOf (jgetD c "age" jnull)) ++ " in house " ++ toString hn2
                ++ " does not live with a related adult family member. Adult occupants present: "
                ++ intListRepr (sortedInts (adultsInHouse chars (mgOccsHouse chars occs2)))⟩
                : Issue)]
            else []
          | _ => ([] : List Issue)) = _
        rw [halh]
        simp only [Option.getD_some]
        rw [hocc2]
    rw [hoccs_eq]
    refine ⟨?_, ?_, hsub⟩
    · intro hno
      have hfa : mgHasAdult chars sp cop poc cid (mgOccsHouse chars occs) = false :=
        Bool.eq_false_iff.mpr (fun ht => hno (hiff.mp ht))
      rw [heq, hfa]
      rfl
    · intro hex
      have hfa : mgHasAdult chars sp cop poc cid (mgOccsHouse chars occs) = true :=
        hiff.mpr hex
      rw [heq, hfa]
      rfl

theorem C3_minor_guardianship_witness :
    minor_guardian_issue [((1 : Int), jobj [("age", jint 7)])]
        [((2 : Int), jobj [("occupants", jarr [jint 1])])] [] [] []
        (build_house_index [((2 : Int), jobj [("occupants", jarr [jint 1])])]) 1
        (jobj [("age", jint 7)])
      = [⟨"ERROR", "2.2.4.1",
          "Minor NPC id=1 age=7 in house 2 does not live with a related adult family member. Adult occupants present: []"⟩] :=
  Eq.trans
    ((C3_minor_guardianship [((1 : Int), jobj [("age", jint 7)])]
      [((2 : Int), jobj [("occupants", jarr [jint 1])])] [] [] [] 1 (jobj [("age", jint 7)]) 2
      (by decide) (List.mem_singleton.mpr rfl) rfl (by decide) rfl (by decide) rfl).1
      (by
        rintro ⟨v, hr, hp⟩
        rcases reach_mem_of_adj_sub
          (fun u w hw => (GOK_related_edges [] [] []
            (minorOccsHouse [((1 : Int), jobj [("age", jint 7)])]
              [((2 : Int), jobj [("occupants", jarr [jint 1])])] 2)).2 u w hw) hr with h1 | h1
        · rw [h1] at hp
          exact absurd hp (by decide)
        · have h2 : v ∈ ([1] : List Int) := h1
          rw [List.mem_singleton.mp h2] at hp
          exact absurd hp (by decide)))
    (by decide)

end Redbrick
